import Mathlib

/-!
Verification development for the semantic-cache core of the repository
(`src/utils/semantic_cache.py`): the `SemanticCache` similarity store, its
persistence through two on-disk artifacts, and the `TwoLevelCache`
composition of a RAG-context store and an LLM-response store.

Modelling conventions:
* Python floats are idealised: embedding vectors are lists of rationals,
  cosine-similarity values live in `ℝ` (the square root of the norm is
  irrational in general).
* JSON payload dictionaries are association lists `List (String × JVal)`
  with insertion-ordered Python-dict semantics (`setKey` replaces in place
  or appends).
* The MD5-hex key derivation `_generate_cache_key` is abstracted as an
  arbitrary function `hashKey : String → String` passed to the operations.
* The injected embedding model is `Embeddings`; its `embed_query` may fail
  (`Except`), modelling a raising provider.  `datetime.now()` is passed in
  as an explicit `now : String` argument.
* The two on-disk files are a `Disk` record; a present file holds either a
  successfully decodable value (`Except.ok`) or an undecodable/corrupt one
  (`Except.error`), and OS-level reads/writes themselves succeed.
-/

/-- A (flat) JSON-ish value stored inside a payload dictionary. -/
inductive JVal where
  | str (s : String)
  | nat (n : ℕ)
deriving DecidableEq

/-- A payload dictionary: an insertion-ordered association list. -/
abbrev JObj := List (String × JVal)

/-- The `cache_data` payload map: payload key to payload dictionary. -/
abbrev CacheData := List (String × JObj)

/-- An embedding vector (Python float list, idealised to rationals). -/
abbrev Vec := List ℚ

/-- Python-dict read: first binding of a key, if any. -/
def lookupKey {α : Type} : List (String × α) → String → Option α
  | [], _ => none
  | (k, v) :: rest, key => if k = key then some v else lookupKey rest key

/-- Python-dict write: replace the binding in place, else append. -/
def setKey {α : Type} : List (String × α) → String → α → List (String × α)
  | [], key, v => [(key, v)]
  | (k, w) :: rest, key, v =>
      if k = key then (key, v) :: rest else (k, w) :: setKey rest key v

/-- `np.dot` on two 1-D vectors. -/
def dotProduct (v w : Vec) : ℚ := (List.zipWith (fun a b => a * b) v w).sum

/-- Sum of squares of the entries (the square of `np.linalg.norm`). -/
def sumSq (v : Vec) : ℚ := dotProduct v v

/-- `np.linalg.norm`: the Euclidean norm. -/
noncomputable def normR (v : Vec) : ℝ := Real.sqrt ((sumSq v : ℚ) : ℝ)

/-- `SemanticCache._cosine_similarity`: dot product over the product of
norms, `0.0` when either norm is zero. -/
noncomputable def cosineSim (vec1 vec2 : Vec) : ℝ :=
  if normR vec1 = 0 ∨ normR vec2 = 0 then 0
  else ((dotProduct vec1 vec2 : ℚ) : ℝ) / (normR vec1 * normR vec2)

/-- The injected embedding model; `embed_query` may raise. -/
structure Embeddings where
  embed_query : String → Except String Vec

/-- The in-memory state of one `SemanticCache` instance. -/
structure SemanticCache where
  similarity_threshold : ℚ
  hits : ℕ
  misses : ℕ
  total_queries : ℕ
  cache_queries : List String
  cache_embeddings : List Vec
  cache_data : CacheData
deriving DecidableEq

deriving instance DecidableEq for Except

/-- The two on-disk artifacts of one store: the payload-map JSON file and
the `.npy` vector file.  `none` = file absent; `some (.error ())` = file
present but truncated/undecodable. -/
structure Disk where
  cacheFile : Option (Except Unit CacheData)
  vectorsFile : Option (Except Unit (List String × List Vec))
deriving DecidableEq

/-- A directory with neither cache file present. -/
def emptyDisk : Disk := ⟨none, none⟩

/-- `SemanticCache._load_cache`: one `try` block loads the payload map and
then the vector file; any failure resets all three containers. -/
def load_cache (d : Disk) : CacheData × List String × List Vec :=
  let r : Except Unit (CacheData × List String × List Vec) := do
    let data ← match d.cacheFile with
      | none => pure []
      | some c => c
    let qe ← match d.vectorsFile with
      | none => pure ([], [])
      | some c => c
    pure (data, qe.1, qe.2)
  match r with
  | .ok v => v
  | .error _ => ([], [], [])

/-- `SemanticCache.__init__`: zeroed statistics, containers from disk. -/
def SemanticCache.init (t : ℚ) (d : Disk) : SemanticCache :=
  { similarity_threshold := t
    hits := 0
    misses := 0
    total_queries := 0
    cache_queries := (load_cache d).2.1
    cache_embeddings := (load_cache d).2.2
    cache_data := (load_cache d).1 }

/-- `SemanticCache._save_cache`: writes both files from the state. -/
def SemanticCache.save_cache (c : SemanticCache) (_d : Disk) : Disk :=
  { cacheFile := some (.ok c.cache_data)
    vectorsFile := some (.ok (c.cache_queries, c.cache_embeddings)) }

/-- The bookkeeping `set` adds to a payload before storing it:
`data["timestamp"] = now; data["access_count"] = 1`. -/
def withMeta (data : JObj) (now : String) : JObj :=
  setKey (setKey data "timestamp" (.str now)) "access_count" (.nat 1)

/-- `SemanticCache.set`: skip silently when the derived key is already
present; otherwise store the augmented payload, then embed the query (a
raising provider aborts here, after the payload-map write), then append the
`(query, embedding)` pair and save both files. -/
def SemanticCache.set (c : SemanticCache) (hashKey : String → String)
    (emb : Embeddings) (d : Disk) (query : String) (data : JObj)
    (now : String) : SemanticCache × Disk :=
  let cache_key := hashKey query
  if (lookupKey c.cache_data cache_key).isSome then (c, d)
  else
    let c2 := { c with cache_data := setKey c.cache_data cache_key (withMeta data now) }
    match emb.embed_query query with
    | .error _ => (c2, d)
    | .ok query_embedding =>
        let c3 := { c2 with
          cache_queries := c2.cache_queries ++ [query]
          cache_embeddings := c2.cache_embeddings ++ [query_embedding] }
        (c3, c3.save_cache d)

/-- The scan of `SemanticCache.get`: enumerate the stored embeddings,
keeping `(max_similarity, most_similar_idx)`, updating on strict
improvement only; the accumulator starts at `(0.0, -1)`. -/
noncomputable def scanSims (qe : Vec) : List Vec → ℕ → ℝ × ℤ → ℝ × ℤ
  | [], _, acc => acc
  | e :: rest, idx, acc =>
      if cosineSim qe e > acc.1 then scanSims qe rest (idx + 1) (cosineSim qe e, (idx : ℤ))
      else scanSims qe rest (idx + 1) acc

/-- The full similarity scan over the stored embeddings. -/
noncomputable def findMostSimilar (qe : Vec) (embs : List Vec) : ℝ × ℤ :=
  scanSims qe embs 0 (0, -1)

/-- `SemanticCache.get`: count the query; miss on an empty payload map, a
raising embedding provider, an empty scan, a missing index entry, a
below-threshold maximum, a missing payload key, or a falsy (empty) payload;
otherwise hit with the payload keyed by the matched stored query. -/
noncomputable def SemanticCache.get (c : SemanticCache)
    (hashKey : String → String) (emb : Embeddings) (query : String) :
    (Bool × Option JObj) × SemanticCache :=
  let c1 := { c with total_queries := c.total_queries + 1 }
  if c1.cache_data.length = 0 then
    ((false, none), { c1 with misses := c1.misses + 1 })
  else
    match emb.embed_query query with
    | .error _ => ((false, none), { c1 with misses := c1.misses + 1 })
    | .ok query_embedding =>
        let r := findMostSimilar query_embedding c1.cache_embeddings
        if r.2 = -1 then ((false, none), { c1 with misses := c1.misses + 1 })
        else
          match c1.cache_queries[r.2.toNat]? with
          | none => ((false, none), { c1 with misses := c1.misses + 1 })
          | some most_similar_query =>
              if r.1 ≥ (c1.similarity_threshold : ℝ) then
                match lookupKey c1.cache_data (hashKey most_similar_query) with
                | some cached_data =>
                    if cached_data = [] then
                      ((false, none), { c1 with misses := c1.misses + 1 })
                    else
                      ((true, some cached_data), { c1 with hits := c1.hits + 1 })
                | none => ((false, none), { c1 with misses := c1.misses + 1 })
              else ((false, none), { c1 with misses := c1.misses + 1 })

/-- `SemanticCache.update_access`: a falsy or non-string `"query"` field
(or any raise) leaves everything unchanged; otherwise increment the entry's
`access_count`, set `last_accessed`, and rewrite only the payload-map
file. -/
def SemanticCache.update_access (c : SemanticCache)
    (hashKey : String → String) (d : Disk) (cached_data : JObj)
    (now : String) : SemanticCache × Disk :=
  match lookupKey cached_data "query" with
  | some (.str query) =>
      if query = "" then (c, d)
      else
        let cache_key := hashKey query
        match lookupKey c.cache_data cache_key with
        | some entry =>
            match lookupKey entry "access_count" with
            | some (.nat n) =>
                let entry2 := setKey (setKey entry "access_count" (.nat (n + 1)))
                  "last_accessed" (.str now)
                let c2 := { c with cache_data := setKey c.cache_data cache_key entry2 }
                (c2, { d with cacheFile := some (.ok c2.cache_data) })
            | _ => (c, d)
        | none => (c, d)
  | _ => (c, d)

/-- The dictionary returned by `SemanticCache.get_stats`. -/
structure CacheStats where
  total_queries : ℕ
  cache_hits : ℕ
  cache_misses : ℕ
  hit_rate : ℚ
  cache_size : ℕ
deriving DecidableEq

/-- `SemanticCache.get_stats`. -/
def SemanticCache.get_stats (c : SemanticCache) : CacheStats :=
  { total_queries := c.total_queries
    cache_hits := c.hits
    cache_misses := c.misses
    hit_rate := if c.total_queries > 0 then (c.hits : ℚ) / (c.total_queries : ℚ) * 100 else 0
    cache_size := c.cache_data.length }

/-- `SemanticCache.clear`: reset every container and counter and remove
both files. -/
def SemanticCache.clear (c : SemanticCache) (_d : Disk) : SemanticCache × Disk :=
  ({ c with
      cache_data := []
      cache_queries := []
      cache_embeddings := []
      hits := 0
      misses := 0
      total_queries := 0 },
   ⟨none, none⟩)

/-- `TwoLevelCache`: a RAG-context store and an LLM-response store. -/
structure TwoLevelCache where
  rag_cache : SemanticCache
  llm_cache : SemanticCache
deriving DecidableEq

/-- The two stores write disjoint file pairs in the shared directory. -/
structure TwoLevelDisk where
  rag : Disk
  llm : Disk
deriving DecidableEq

/-- `TwoLevelCache.__init__` (defaults 0.95 / 0.92). -/
def TwoLevelCache.init (rag_t llm_t : ℚ) (d : TwoLevelDisk) : TwoLevelCache :=
  ⟨SemanticCache.init rag_t d.rag, SemanticCache.init llm_t d.llm⟩

/-- `TwoLevelCache.get_rag_context`: delegate to the Level-1 store. -/
noncomputable def TwoLevelCache.get_rag_context (t : TwoLevelCache)
    (hashKey : String → String) (emb : Embeddings) (d : TwoLevelDisk)
    (query : String) : (Bool × Option JObj) × TwoLevelCache × TwoLevelDisk :=
  let r := t.rag_cache.get hashKey emb query
  (r.1, ⟨r.2, t.llm_cache⟩, d)

/-- `TwoLevelCache.set_rag_context`. -/
def TwoLevelCache.set_rag_context (t : TwoLevelCache)
    (hashKey : String → String) (emb : Embeddings) (d : TwoLevelDisk)
    (query context : String) (token_stats : JVal) (now : String) :
    TwoLevelCache × TwoLevelDisk :=
  let r := t.rag_cache.set hashKey emb d.rag query
    [("query", .str query), ("context", .str context), ("token_stats", token_stats)] now
  (⟨r.1, t.llm_cache⟩, ⟨r.2, d.llm⟩)

/-- `TwoLevelCache.get_llm_response`: on a hit, update the matched entry's
access bookkeeping, then return the payload's `"response"` field. -/
noncomputable def TwoLevelCache.get_llm_response (t : TwoLevelCache)
    (hashKey : String → String) (emb : Embeddings) (d : TwoLevelDisk)
    (query : String) (now : String) :
    (Bool × Option JVal) × TwoLevelCache × TwoLevelDisk :=
  let r := t.llm_cache.get hashKey emb query
  if r.1.1 then
    let cached := r.1.2.getD []
    let u := r.2.update_access hashKey d.llm cached now
    ((true, lookupKey cached "response"), ⟨t.rag_cache, u.1⟩, ⟨d.rag, u.2⟩)
  else ((false, none), ⟨t.rag_cache, r.2⟩, d)

/-- `TwoLevelCache.set_llm_response`. -/
def TwoLevelCache.set_llm_response (t : TwoLevelCache)
    (hashKey : String → String) (emb : Embeddings) (d : TwoLevelDisk)
    (query response : String) (token_stats : JVal) (now : String) :
    TwoLevelCache × TwoLevelDisk :=
  let r := t.llm_cache.set hashKey emb d.llm query
    [("query", .str query), ("response", .str response), ("token_stats", token_stats)] now
  (⟨t.rag_cache, r.1⟩, ⟨d.rag, r.2⟩)

/-- One externally invocable operation on a single store. -/
inductive CacheOp where
  | opGet (query : String)
  | opSet (query : String) (data : JObj) (now : String)
  | opUpdate (cached : JObj) (now : String)
  | opClear
  | opReload
deriving DecidableEq

/-- Apply one operation to (state, disk); `opReload` is a fresh
construction (process restart) against the same directory with the
configured threshold `t`. -/
noncomputable def applyOp (hashKey : String → String) (emb : Embeddings)
    (t : ℚ) (s : SemanticCache × Disk) : CacheOp → SemanticCache × Disk
  | .opGet q => ((s.1.get hashKey emb q).2, s.2)
  | .opSet q data now => s.1.set hashKey emb s.2 q data now
  | .opUpdate cached now => s.1.update_access hashKey s.2 cached now
  | .opClear => s.1.clear s.2
  | .opReload => (SemanticCache.init t s.2, s.2)

/-- Run a sequence of operations. -/
noncomputable def runOps (hashKey : String → String) (emb : Embeddings)
    (t : ℚ) : SemanticCache × Disk → List CacheOp → SemanticCache × Disk
  | s, [] => s
  | s, op :: rest => runOps hashKey emb t (applyOp hashKey emb t s op) rest

/-- Number of lookups in the sequence that return a hit. -/
noncomputable def countHits (hashKey : String → String) (emb : Embeddings)
    (t : ℚ) : SemanticCache × Disk → List CacheOp → ℕ
  | _, [] => 0
  | s, .opGet q :: rest =>
      (if (s.1.get hashKey emb q).1.1 then 1 else 0) +
        countHits hashKey emb t (applyOp hashKey emb t s (.opGet q)) rest
  | s, op :: rest => countHits hashKey emb t (applyOp hashKey emb t s op) rest

/-- Number of lookups in the sequence that return a miss. -/
noncomputable def countMisses (hashKey : String → String) (emb : Embeddings)
    (t : ℚ) : SemanticCache × Disk → List CacheOp → ℕ
  | _, [] => 0
  | s, .opGet q :: rest =>
      (if (s.1.get hashKey emb q).1.1 then 0 else 1) +
        countMisses hashKey emb t (applyOp hashKey emb t s (.opGet q)) rest
  | s, op :: rest => countMisses hashKey emb t (applyOp hashKey emb t s op) rest

/-- `true` when the sequence contains neither `clear` nor a restart. -/
def noResets (T : List CacheOp) : Bool :=
  T.all fun op => match op with
    | .opClear => false
    | .opReload => false
    | _ => true

/-- `true` when the embedding provider succeeds on every inserted query. -/
def setsOk (emb : Embeddings) (T : List CacheOp) : Bool :=
  T.all fun op => match op with
    | .opSet q _ _ => (match emb.embed_query q with | .ok _ => true | .error _ => false)
    | _ => true

/-- Identity key derivation used in the concrete witnesses (stands for an
arbitrary `hashKey`; the operations never invert it). -/
def hashId : String → String := fun s => s

/-- A provider embedding everything to the unit vector `[1]`. -/
def embOne : Embeddings := ⟨fun _ => .ok [1]⟩

/-- A provider embedding everything to the degenerate zero vector `[0]`. -/
def embZero : Embeddings := ⟨fun _ => .ok [0]⟩

/-- A provider that always raises. -/
def embErr : Embeddings := ⟨fun _ => .error "provider unavailable"⟩

/-- A provider with two orthogonal unit embeddings. -/
def embOrtho : Embeddings := ⟨fun s => .ok (if s = "a" then [0, 1] else [1, 0])⟩

/-- A provider with two distinct but parallel embeddings. -/
def embPar : Embeddings := ⟨fun s => .ok (if s = "a" then [1] else [2])⟩

/-- A sample payload used by the concrete witnesses. -/
def samplePayload : JObj := [("r", JVal.str "x")]

/-- A second, different sample payload. -/
def samplePayload2 : JObj := [("r", JVal.str "y")]

/-- The in-memory 1:1 alignment of the invariant section: one embedding
per payload-map entry, and payload keys are unique. -/
def Consistent (c : SemanticCache) : Prop :=
  c.cache_data.length = c.cache_queries.length ∧
  c.cache_embeddings.length = c.cache_queries.length ∧
  (c.cache_data.map Prod.fst).Nodup

/-- The on-disk artifacts decode to containers aligned with the state, and
the store's own writes never leave an undecodable file behind. -/
def DiskSync (c : SemanticCache) (d : Disk) : Prop :=
  (load_cache d).1.length = c.cache_queries.length ∧
  (load_cache d).2.1.length = c.cache_queries.length ∧
  (load_cache d).2.2.length = c.cache_queries.length ∧
  ((load_cache d).1.map Prod.fst).Nodup ∧
  (d.cacheFile = none ∨ ∃ pm, d.cacheFile = some (.ok pm)) ∧
  (d.vectorsFile = none ∨ ∃ qe, d.vectorsFile = some (.ok qe))

/-! ### Association-list lemmas -/

lemma lookupKey_setKey_self {α : Type} (l : List (String × α)) (k : String) (v : α) :
    lookupKey (setKey l k v) k = some v := by
  induction l with
  | nil => simp [setKey, lookupKey]
  | cons p rest ih =>
      by_cases h : p.1 = k
      · simp [setKey, h, lookupKey]
      · simp [setKey, h, lookupKey, ih]

lemma lookupKey_eq_none_iff {α : Type} (l : List (String × α)) (k : String) :
    lookupKey l k = none ↔ k ∉ l.map Prod.fst := by
  induction l with
  | nil => simp [lookupKey]
  | cons p rest ih =>
      by_cases h : p.1 = k
      · simp [lookupKey, h]
      · simp [lookupKey, h, ih]
        intro hk
        exact fun hkk => h hkk.symm

lemma setKey_of_none {α : Type} (l : List (String × α)) (k : String) (v : α)
    (h : lookupKey l k = none) : setKey l k v = l ++ [(k, v)] := by
  induction l with
  | nil => simp [setKey]
  | cons p rest ih =>
      by_cases hp : p.1 = k
      · simp [lookupKey, hp] at h
      · simp [lookupKey, hp] at h
        simp [setKey, hp, ih h]

lemma setKey_map_fst_of_some {α : Type} (l : List (String × α)) (k : String) (v w : α)
    (h : lookupKey l k = some w) : (setKey l k v).map Prod.fst = l.map Prod.fst := by
  induction l with
  | nil => simp [lookupKey] at h
  | cons p rest ih =>
      by_cases hp : p.1 = k
      · simp [setKey, hp]
      · simp [lookupKey, hp] at h
        simp [setKey, hp, ih h]

lemma setKey_length_of_some {α : Type} (l : List (String × α)) (k : String) (v w : α)
    (h : lookupKey l k = some w) : (setKey l k v).length = l.length := by
  have := congrArg List.length (setKey_map_fst_of_some l k v w h)
  simpa using this

/-! ### Vector arithmetic -/

lemma sumSq_nonneg (v : Vec) : 0 ≤ sumSq v := by
  induction v with
  | nil => simp [sumSq, dotProduct]
  | cons x xs ih =>
      have hx : 0 ≤ x * x := mul_self_nonneg x
      have : sumSq (x :: xs) = x * x + sumSq xs := by
        simp [sumSq, dotProduct, List.zipWith]
      rw [this]
      exact add_nonneg hx ih

lemma normR_eq_zero_iff (v : Vec) : normR v = 0 ↔ sumSq v = 0 := by
  constructor
  · intro h
    have hnn : (0 : ℝ) ≤ ((sumSq v : ℚ) : ℝ) := by exact_mod_cast sumSq_nonneg v
    have := (Real.sqrt_eq_zero hnn).mp h
    exact_mod_cast this
  · intro h
    simp [normR, h]

lemma cosineSim_zero_left (v w : Vec) (h : sumSq v = 0) : cosineSim v w = 0 := by
  have : normR v = 0 := (normR_eq_zero_iff v).mpr h
  simp [cosineSim, this]

lemma cosineSim_self (v : Vec) (h : sumSq v ≠ 0) : cosineSim v v = 1 := by
  have hn : normR v ≠ 0 := fun hc => h ((normR_eq_zero_iff v).mp hc)
  have hnn : (0 : ℝ) ≤ ((sumSq v : ℚ) : ℝ) := by exact_mod_cast sumSq_nonneg v
  have hsq : normR v * normR v = ((sumSq v : ℚ) : ℝ) := Real.mul_self_sqrt hnn
  have hne : ((sumSq v : ℚ) : ℝ) ≠ 0 := by exact_mod_cast h
  have hdot : dotProduct v v = sumSq v := rfl
  simp only [cosineSim, hn, or_self, if_false, hdot, hsq]
  exact div_self hne

lemma cosineSim_of_unit (v w : Vec) (h1 : sumSq v = 1) (h2 : sumSq w = 1) :
    cosineSim v w = ((dotProduct v w : ℚ) : ℝ) := by
  have hn1 : normR v = 1 := by simp [normR, h1]
  have hn2 : normR w = 1 := by simp [normR, h2]
  simp [cosineSim, hn1, hn2]

/-! ### The similarity scan: argmax with earliest-wins tie-break -/

lemma scanSims_spec (qe : Vec) (l : List Vec) (i0 : ℕ) (m : ℝ) (mi : ℤ) :
    m ≤ (scanSims qe l i0 (m, mi)).1 ∧
    (∀ j, j < l.length → cosineSim qe (l.getD j []) ≤ (scanSims qe l i0 (m, mi)).1) ∧
    (((scanSims qe l i0 (m, mi)).1 = m ∧ (scanSims qe l i0 (m, mi)).2 = mi) ∨
      (∃ k, k < l.length ∧ (scanSims qe l i0 (m, mi)).2 = (i0 : ℤ) + (k : ℤ) ∧
        (scanSims qe l i0 (m, mi)).1 = cosineSim qe (l.getD k []) ∧
        m < (scanSims qe l i0 (m, mi)).1 ∧
        ∀ j, j < k → cosineSim qe (l.getD j []) < (scanSims qe l i0 (m, mi)).1)) := by
  induction l generalizing i0 m mi with
  | nil => simp [scanSims]
  | cons e rest ih =>
      by_cases hs : cosineSim qe e > m
      · have hstep : scanSims qe (e :: rest) i0 (m, mi) =
            scanSims qe rest (i0 + 1) (cosineSim qe e, (i0 : ℤ)) := by
          simp [scanSims, hs]
        rw [hstep]
        obtain ⟨h1, h2, h3⟩ := ih (i0 + 1) (cosineSim qe e) (i0 : ℤ)
        refine ⟨le_of_lt (lt_of_lt_of_le hs h1), ?_, ?_⟩
        · intro j hj
          cases j with
          | zero => simpa using h1
          | succ j =>
              simp only [List.getD_cons_succ]
              exact h2 j (by simpa using hj)
        · rcases h3 with ⟨hm, hmi⟩ | ⟨k, hk, hmi, hval, hlt, hfirst⟩
          · refine Or.inr ⟨0, by simp, ?_, by simpa using hm, ?_, ?_⟩
            · rw [hmi]; push_cast; ring
            · rw [hm]; exact hs
            · intro j hj; exact absurd hj (Nat.not_lt_zero j)
          · refine Or.inr ⟨k + 1, by simpa using hk, ?_, by simpa using hval, ?_, ?_⟩
            · rw [hmi]; push_cast; ring
            · exact lt_trans hs hlt
            · intro j hj
              cases j with
              | zero => simp only [List.getD_cons_zero]; exact hlt
              | succ j =>
                  simp only [List.getD_cons_succ]
                  exact hfirst j (by omega)
      · have hse : cosineSim qe e ≤ m := not_lt.mp hs
        have hstep : scanSims qe (e :: rest) i0 (m, mi) =
            scanSims qe rest (i0 + 1) (m, mi) := by
          simp [scanSims, hs]
        rw [hstep]
        obtain ⟨h1, h2, h3⟩ := ih (i0 + 1) m mi
        refine ⟨h1, ?_, ?_⟩
        · intro j hj
          cases j with
          | zero => simp only [List.getD_cons_zero]; exact le_trans hse h1
          | succ j =>
              simp only [List.getD_cons_succ]
              exact h2 j (by simpa using hj)
        · rcases h3 with ⟨hm, hmi'⟩ | ⟨k, hk, hmi', hval, hlt, hfirst⟩
          · exact Or.inl ⟨hm, hmi'⟩
          · refine Or.inr ⟨k + 1, by simpa using hk, ?_, by simpa using hval, hlt, ?_⟩
            · rw [hmi']; push_cast; ring
            · intro j hj
              cases j with
              | zero => simp only [List.getD_cons_zero]; exact lt_of_le_of_lt hse hlt
              | succ j =>
                  simp only [List.getD_cons_succ]
                  exact hfirst j (by omega)

lemma findMostSimilar_spec (qe : Vec) (l : List Vec) :
    0 ≤ (findMostSimilar qe l).1 ∧
    (∀ j, j < l.length → cosineSim qe (l.getD j []) ≤ (findMostSimilar qe l).1) ∧
    (((findMostSimilar qe l).1 = 0 ∧ (findMostSimilar qe l).2 = -1) ∨
      (∃ k, k < l.length ∧ (findMostSimilar qe l).2 = (k : ℤ) ∧
        (findMostSimilar qe l).1 = cosineSim qe (l.getD k []) ∧
        0 < (findMostSimilar qe l).1 ∧
        ∀ j, j < k → cosineSim qe (l.getD j []) < (findMostSimilar qe l).1)) := by
  have h := scanSims_spec qe l 0 0 (-1)
  have hfe : findMostSimilar qe l = scanSims qe l 0 (0, -1) := rfl
  rw [hfe]
  obtain ⟨h1, h2, h3⟩ := h
  refine ⟨h1, h2, ?_⟩
  rcases h3 with hl | ⟨k, hk, hmi, hval, hlt, hfirst⟩
  · exact Or.inl hl
  · refine Or.inr ⟨k, hk, ?_, hval, hlt, hfirst⟩
    rw [hmi]; push_cast; ring

lemma firstMax_unique {S : ℕ → ℝ} {n k1 k2 : ℕ} (h1 : k1 < n) (h2 : k2 < n)
    (hmax1 : ∀ j, j < n → S j ≤ S k1) (hfirst1 : ∀ j, j < k1 → S j < S k1)
    (hmax2 : ∀ j, j < n → S j ≤ S k2) (hfirst2 : ∀ j, j < k2 → S j < S k2) :
    k1 = k2 := by
  rcases lt_trichotomy k1 k2 with h | h | h
  · exact absurd (lt_of_lt_of_le (hfirst2 k1 h) (hmax1 k2 h2)) (lt_irrefl _)
  · exact h
  · exact absurd (lt_of_lt_of_le (hfirst1 k2 h) (hmax2 k1 h1)) (lt_irrefl _)

/-! ### Structural facts about `SemanticCache.get` -/

lemma get_snd (c : SemanticCache) (hashKey : String → String) (emb : Embeddings)
    (q : String) :
    (c.get hashKey emb q).2 =
      if (c.get hashKey emb q).1.1 then
        { c with total_queries := c.total_queries + 1, hits := c.hits + 1 }
      else
        { c with total_queries := c.total_queries + 1, misses := c.misses + 1 } := by
  simp only [SemanticCache.get]
  repeat' split
  all_goals simp_all

lemma get_core (c : SemanticCache) (hashKey : String → String) (emb : Embeddings)
    (q : String) :
    (c.get hashKey emb q).2.similarity_threshold = c.similarity_threshold ∧
    (c.get hashKey emb q).2.cache_queries = c.cache_queries ∧
    (c.get hashKey emb q).2.cache_embeddings = c.cache_embeddings ∧
    (c.get hashKey emb q).2.cache_data = c.cache_data := by
  rw [get_snd]
  by_cases h : (c.get hashKey emb q).1.1 <;> simp [h]

lemma get_counters (c : SemanticCache) (hashKey : String → String) (emb : Embeddings)
    (q : String) :
    (c.get hashKey emb q).2.total_queries = c.total_queries + 1 ∧
    (c.get hashKey emb q).2.hits = c.hits + (if (c.get hashKey emb q).1.1 then 1 else 0) ∧
    (c.get hashKey emb q).2.misses = c.misses + (if (c.get hashKey emb q).1.1 then 0 else 1) := by
  rw [get_snd]
  by_cases h : (c.get hashKey emb q).1.1 <;> simp [h]

lemma get_fst_congr (c c' : SemanticCache) (hashKey : String → String)
    (emb : Embeddings) (q : String)
    (h1 : c.cache_data = c'.cache_data) (h2 : c.cache_queries = c'.cache_queries)
    (h3 : c.cache_embeddings = c'.cache_embeddings)
    (h4 : c.similarity_threshold = c'.similarity_threshold) :
    (c.get hashKey emb q).1 = (c'.get hashKey emb q).1 := by
  simp only [SemanticCache.get, h1, h2, h3, h4]
  repeat' split
  all_goals simp_all

lemma get_single_entry_hit (c : SemanticCache) (hashKey : String → String)
    (emb : Embeddings) (q : String) (v : Vec) (pl : JObj)
    (hd : c.cache_data = [(hashKey q, pl)]) (hpl : pl ≠ [])
    (hq : c.cache_queries = [q]) (he : c.cache_embeddings = [v])
    (hemb : emb.embed_query q = .ok v) (hv : sumSq v ≠ 0)
    (ht : (c.similarity_threshold : ℝ) ≤ 1) :
    (c.get hashKey emb q).1 = (true, some pl) := by
  have hcos : cosineSim v v = 1 := cosineSim_self v hv
  have hscan : findMostSimilar v [v] = (1, 0) := by
    simp only [findMostSimilar, scanSims, hcos]
    norm_num
  simp only [SemanticCache.get, hd, hq, he, hemb, hscan]
  norm_num [lookupKey, hpl, ht]

lemma get_single_nonpos_miss (c : SemanticCache) (hashKey : String → String)
    (emb : Embeddings) (q : String) (v e : Vec)
    (hne : c.cache_data ≠ []) (he : c.cache_embeddings = [e])
    (hemb : emb.embed_query q = .ok v) (hs : cosineSim v e ≤ 0) :
    (c.get hashKey emb q).1 = (false, none) := by
  have hscan : findMostSimilar v [e] = (0, -1) := by
    simp [findMostSimilar, scanSims, not_lt.mpr hs]
  have hlen : ¬c.cache_data.length = 0 := by
    simpa [List.length_eq_zero] using hne
  simp only [SemanticCache.get, he, hemb, hscan]
  simp [hlen]

lemma cosineSim_eval (v w : Vec) (a b : ℝ) (hv : normR v = a) (hw : normR w = b)
    (ha : a ≠ 0) (hb : b ≠ 0) :
    cosineSim v w = ((dotProduct v w : ℚ) : ℝ) / (a * b) := by
  simp [cosineSim, hv, hw, ha, hb]

lemma normR_two : normR [(2 : ℚ)] = 2 := by
  have h4 : ((sumSq [(2 : ℚ)] : ℚ) : ℝ) = 4 := by
    norm_num [sumSq, dotProduct]
  rw [normR, h4, show (4 : ℝ) = 2 ^ 2 by norm_num, Real.sqrt_sq (by norm_num)]

lemma normR_one_vec : normR [(1 : ℚ)] = 1 := by
  have h1 : ((sumSq [(1 : ℚ)] : ℚ) : ℝ) = 1 := by
    norm_num [sumSq, dotProduct]
  rw [normR, h1, Real.sqrt_one]

/-! ### Structural facts about `set`, `update_access`, persistence -/

lemma set_skip (c : SemanticCache) (hashKey : String → String) (emb : Embeddings)
    (d : Disk) (q : String) (data : JObj) (now : String)
    (h : (lookupKey c.cache_data (hashKey q)).isSome) :
    c.set hashKey emb d q data now = (c, d) := by
  simp [SemanticCache.set, h]

lemma set_fresh_ok (c : SemanticCache) (hashKey : String → String) (emb : Embeddings)
    (d : Disk) (q : String) (data : JObj) (now : String) (v : Vec)
    (hfresh : lookupKey c.cache_data (hashKey q) = none)
    (hemb : emb.embed_query q = .ok v) :
    c.set hashKey emb d q data now =
      ({ c with
          cache_data := setKey c.cache_data (hashKey q) (withMeta data now)
          cache_queries := c.cache_queries ++ [q]
          cache_embeddings := c.cache_embeddings ++ [v] },
       ⟨some (.ok (setKey c.cache_data (hashKey q) (withMeta data now))),
        some (.ok (c.cache_queries ++ [q], c.cache_embeddings ++ [v]))⟩) := by
  simp [SemanticCache.set, hfresh, hemb, SemanticCache.save_cache]

lemma set_fresh_err (c : SemanticCache) (hashKey : String → String) (emb : Embeddings)
    (d : Disk) (q : String) (data : JObj) (now : String) (msg : String)
    (hfresh : lookupKey c.cache_data (hashKey q) = none)
    (hemb : emb.embed_query q = .error msg) :
    c.set hashKey emb d q data now =
      ({ c with cache_data := setKey c.cache_data (hashKey q) (withMeta data now) }, d) := by
  simp [SemanticCache.set, hfresh, hemb]

lemma set_counters (c : SemanticCache) (hashKey : String → String) (emb : Embeddings)
    (d : Disk) (q : String) (data : JObj) (now : String) :
    (c.set hashKey emb d q data now).1.hits = c.hits ∧
    (c.set hashKey emb d q data now).1.misses = c.misses ∧
    (c.set hashKey emb d q data now).1.total_queries = c.total_queries ∧
    (c.set hashKey emb d q data now).1.similarity_threshold = c.similarity_threshold := by
  simp only [SemanticCache.set]
  repeat' split
  all_goals simp

lemma update_access_noop_no_query (c : SemanticCache) (hashKey : String → String)
    (d : Disk) (cached_data : JObj) (now : String)
    (h : lookupKey cached_data "query" = none) :
    c.update_access hashKey d cached_data now = (c, d) := by
  simp [SemanticCache.update_access, h]

lemma update_access_effect (c : SemanticCache) (hashKey : String → String)
    (d : Disk) (cached_data : JObj) (now : String) (qs : String) (entry : JObj) (n : ℕ)
    (hq : lookupKey cached_data "query" = some (.str qs)) (hqs : qs ≠ "")
    (hentry : lookupKey c.cache_data (hashKey qs) = some entry)
    (hac : lookupKey entry "access_count" = some (.nat n)) :
    c.update_access hashKey d cached_data now =
      ({ c with cache_data := (setKey c.cache_data (hashKey qs)
            (setKey (setKey entry "access_count" (.nat (n + 1))) "last_accessed" (.str now))) },
       { d with cacheFile := (some (.ok (setKey c.cache_data (hashKey qs)
            (setKey (setKey entry "access_count" (.nat (n + 1))) "last_accessed" (.str now))))) }) := by
  simp [SemanticCache.update_access, hq, hqs, hentry, hac]

lemma update_access_counters (c : SemanticCache) (hashKey : String → String)
    (d : Disk) (cached_data : JObj) (now : String) :
    (c.update_access hashKey d cached_data now).1.hits = c.hits ∧
    (c.update_access hashKey d cached_data now).1.misses = c.misses ∧
    (c.update_access hashKey d cached_data now).1.total_queries = c.total_queries ∧
    (c.update_access hashKey d cached_data now).1.similarity_threshold = c.similarity_threshold ∧
    (c.update_access hashKey d cached_data now).1.cache_queries = c.cache_queries ∧
    (c.update_access hashKey d cached_data now).1.cache_embeddings = c.cache_embeddings := by
  simp only [SemanticCache.update_access]
  repeat' split
  all_goals simp

lemma load_save_roundtrip (c : SemanticCache) (d : Disk) :
    load_cache (c.save_cache d) = (c.cache_data, c.cache_queries, c.cache_embeddings) := rfl

lemma load_emptyDisk : load_cache emptyDisk = ([], [], []) := rfl

lemma setKey_ne_nil {α : Type} (l : List (String × α)) (k : String) (v : α) :
    setKey l k v ≠ [] := by
  cases l with
  | nil => simp [setKey]
  | cons p rest =>
      by_cases h : p.1 = k <;> simp [setKey, h]

lemma withMeta_ne_nil (p : JObj) (now : String) : withMeta p now ≠ [] :=
  setKey_ne_nil _ _ _

/-! ### Claim theorems -/

/-- C8: no cache operation propagates an exception; in particular a raising
embedding provider makes `get` return a miss and count that call in the
miss and total counters, leaving everything else unchanged. -/
theorem C8_embed_error_miss (c : SemanticCache) (hashKey : String → String)
    (emb : Embeddings) (q : String) (msg : String)
    (herr : emb.embed_query q = .error msg) :
    c.get hashKey emb q = ((false, none),
      { c with total_queries := c.total_queries + 1, misses := c.misses + 1 }) := by
  simp only [SemanticCache.get, herr]
  by_cases h : c.cache_data.length = 0 <;> simp [h]

/-- Witness for C8 at a concrete non-empty store and raising provider. -/
theorem C8_embed_error_miss_witness :
    embErr.embed_query "q" = Except.error "provider unavailable" ∧
    SemanticCache.get ⟨0.95, 0, 0, 0, ["a"], [[1]], [("a", samplePayload)]⟩ hashId embErr "q" =
      ((false, none), ⟨0.95, 0, 1, 1, ["a"], [[1]], [("a", samplePayload)]⟩) :=
  ⟨rfl, C8_embed_error_miss ⟨0.95, 0, 0, 0, ["a"], [[1]], [("a", samplePayload)]⟩
    hashId embErr "q" "provider unavailable" rfl⟩

/-- C7: a second insert of the same query text is a complete no-op (state
and disk unchanged), the payload stored under the derived key is the first
insert's (augmented with the bookkeeping fields insert adds in place), and
the first insert grew the payload map by exactly one entry. -/
theorem C7_duplicate_insert_noop (c : SemanticCache) (hashKey : String → String)
    (emb : Embeddings) (d : Disk) (q : String) (p1 p2 : JObj) (now1 now2 : String)
    (hfresh : lookupKey c.cache_data (hashKey q) = none) :
    (c.set hashKey emb d q p1 now1).1.set hashKey emb
        (c.set hashKey emb d q p1 now1).2 q p2 now2 = c.set hashKey emb d q p1 now1 ∧
    lookupKey (c.set hashKey emb d q p1 now1).1.cache_data (hashKey q)
        = some (withMeta p1 now1) ∧
    (c.set hashKey emb d q p1 now1).1.cache_data.length = c.cache_data.length + 1 := by
  have hsome : lookupKey (setKey c.cache_data (hashKey q) (withMeta p1 now1)) (hashKey q)
      = some (withMeta p1 now1) := lookupKey_setKey_self _ _ _
  have hlen : (setKey c.cache_data (hashKey q) (withMeta p1 now1)).length
      = c.cache_data.length + 1 := by
    rw [setKey_of_none _ _ _ hfresh]
    simp
  rcases hE : emb.embed_query q with msg | v
  · rw [set_fresh_err c hashKey emb d q p1 now1 msg hfresh hE]
    exact ⟨set_skip _ _ _ _ _ _ _ (by simp [hsome]), by simpa using hsome, by simpa using hlen⟩
  · rw [set_fresh_ok c hashKey emb d q p1 now1 v hfresh hE]
    exact ⟨set_skip _ _ _ _ _ _ _ (by simp [hsome]), by simpa using hsome, by simpa using hlen⟩

/-- Witness for C7 at a concrete empty store and two distinct payloads. -/
theorem C7_duplicate_insert_noop_witness :
    lookupKey (SemanticCache.init 0.95 emptyDisk).cache_data (hashId "a") = none ∧
    ((SemanticCache.init 0.95 emptyDisk).set hashId embOne emptyDisk "a" samplePayload "t1").1.set
        hashId embOne
        ((SemanticCache.init 0.95 emptyDisk).set hashId embOne emptyDisk "a" samplePayload "t1").2
        "a" samplePayload2 "t2"
      = (SemanticCache.init 0.95 emptyDisk).set hashId embOne emptyDisk "a" samplePayload "t1" ∧
    lookupKey ((SemanticCache.init 0.95 emptyDisk).set hashId embOne
        emptyDisk "a" samplePayload "t1").1.cache_data (hashId "a")
      = some (withMeta samplePayload "t1") ∧
    ((SemanticCache.init 0.95 emptyDisk).set hashId embOne
        emptyDisk "a" samplePayload "t1").1.cache_data.length
      = (SemanticCache.init 0.95 emptyDisk).cache_data.length + 1 := by
  have h := C7_duplicate_insert_noop (SemanticCache.init 0.95 emptyDisk) hashId embOne
    emptyDisk "a" samplePayload samplePayload2 "t1" "t2" rfl
  exact ⟨rfl, h.1, h.2.1, h.2.2⟩

/-- C4 (amended): constructing a store whose vector file is present but
fails to deserialize does not throw, but the shared exception handler also
discards the payload map read from disk: the store comes up fully empty
(entry count 0, no vectors) and every lookup on it misses. -/
theorem C4_corrupt_vectors_degrade (t : ℚ) (cf : Option (Except Unit CacheData))
    (hashKey : String → String) (emb : Embeddings) (q : String) :
    SemanticCache.init t ⟨cf, some (.error ())⟩ = ⟨t, 0, 0, 0, [], [], []⟩ ∧
    ((SemanticCache.init t ⟨cf, some (.error ())⟩).get hashKey emb q).1 = (false, none) := by
  have hload : load_cache ⟨cf, some (.error ())⟩ = ([], [], []) := by
    rcases cf with _ | cfv
    · rfl
    · rcases cfv with e | pm <;> rfl
  have hinit : SemanticCache.init t ⟨cf, some (.error ())⟩ = ⟨t, 0, 0, 0, [], [], []⟩ := by
    simp [SemanticCache.init, hload]
  refine ⟨hinit, ?_⟩
  rw [hinit]
  simp [SemanticCache.get]

/-- Counterexample to C4 as stated: a payload-map file holding one entry
next to a corrupt vector file yields `entry_count` 0, not 1. -/
theorem C4_counterexample :
    (SemanticCache.init 0.95 ⟨some (.ok [("k", samplePayload)]), some (.error ())⟩).get_stats.cache_size = 0 ∧
    ([("k", samplePayload)] : CacheData).length = 1 ∧
    ¬(SemanticCache.init 0.95 ⟨some (.ok [("k", samplePayload)]), some (.error ())⟩).get_stats.cache_size
        = ([("k", samplePayload)] : CacheData).length := by
  refine ⟨rfl, rfl, by decide⟩

/-- C2 (amended): from an empty store, lookup misses; after insert, lookup
of the same query hits with the stored entry (the inserted payload plus the
timestamp/access-count bookkeeping insert adds in place) and self-similarity
1.0 — provided the embedding call succeeds with a non-zero vector and the
threshold is at most 1. -/
theorem C2_miss_then_hit (hashKey : String → String) (emb : Embeddings)
    (q : String) (p : JObj) (now : String) (t : ℚ) (v : Vec)
    (hemb : emb.embed_query q = .ok v) (hv : sumSq v ≠ 0) (ht : t ≤ 1) :
    ((SemanticCache.init t emptyDisk).get hashKey emb q).1 = (false, none) ∧
    ((((SemanticCache.init t emptyDisk).get hashKey emb q).2.set hashKey emb
        emptyDisk q p now).1.get hashKey emb q).1 = (true, some (withMeta p now)) ∧
    cosineSim v v = 1 := by
  have hc0 : SemanticCache.init t emptyDisk = ⟨t, 0, 0, 0, [], [], []⟩ := rfl
  have hmiss : ((SemanticCache.init t emptyDisk).get hashKey emb q).1 = (false, none) := by
    rw [hc0]
    simp [SemanticCache.get]
  have hc1 : ((SemanticCache.init t emptyDisk).get hashKey emb q).2
      = (⟨t, 0, 1, 1, [], [], []⟩ : SemanticCache) := by
    rw [get_snd, hmiss]
    simp [hc0]
  refine ⟨hmiss, ?_, cosineSim_self v hv⟩
  rw [hc1, set_fresh_ok (⟨t, 0, 1, 1, [], [], []⟩ : SemanticCache) hashKey emb
    emptyDisk q p now v rfl hemb]
  apply get_single_entry_hit _ _ _ _ v (withMeta p now)
  · simp [setKey]
  · exact withMeta_ne_nil p now
  · simp
  · simp
  · exact hemb
  · exact hv
  · show ((t : ℚ) : ℝ) ≤ 1
    exact_mod_cast ht

/-- Witness for C2 at a concrete query, payload and unit embedding. -/
theorem C2_miss_then_hit_witness :
    embOne.embed_query "a" = Except.ok [1] ∧ sumSq [(1 : ℚ)] ≠ 0 ∧ (0.95 : ℚ) ≤ 1 ∧
    (((SemanticCache.init 0.95 emptyDisk).get hashId embOne "a").1 = (false, none) ∧
     ((((SemanticCache.init 0.95 emptyDisk).get hashId embOne "a").2.set hashId embOne
        emptyDisk "a" samplePayload "t0").1.get hashId embOne "a").1
       = (true, some (withMeta samplePayload "t0")) ∧
     cosineSim [(1 : ℚ)] [(1 : ℚ)] = 1) :=
  ⟨rfl, by norm_num [sumSq, dotProduct], by norm_num,
   C2_miss_then_hit hashId embOne "a" samplePayload "t0" 0.95 [1] rfl
     (by norm_num [sumSq, dotProduct]) (by norm_num)⟩

/-- Counterexample to C2 as stated: under the (deterministic) embedding
that maps every query to the zero vector, the insert succeeds and stores
the payload, but the second lookup misses — the degenerate-norm guard makes
self-similarity 0, not 1. -/
theorem C2_counterexample :
    ((SemanticCache.init 0.95 emptyDisk).get hashId embZero "a").1 = (false, none) ∧
    lookupKey (((SemanticCache.init 0.95 emptyDisk).get hashId embZero "a").2.set hashId
        embZero emptyDisk "a" samplePayload "t0").1.cache_data (hashId "a")
      = some (withMeta samplePayload "t0") ∧
    ((((SemanticCache.init 0.95 emptyDisk).get hashId embZero "a").2.set hashId
        embZero emptyDisk "a" samplePayload "t0").1.get hashId embZero "a").1
      = (false, none) := by
  have hc0 : SemanticCache.init (0.95 : ℚ) emptyDisk
      = ⟨0.95, 0, 0, 0, [], [], []⟩ := rfl
  have hmiss : ((SemanticCache.init (0.95 : ℚ) emptyDisk).get hashId embZero "a").1
      = (false, none) := by
    rw [hc0]
    simp [SemanticCache.get]
  have hc1 : ((SemanticCache.init (0.95 : ℚ) emptyDisk).get hashId embZero "a").2
      = (⟨0.95, 0, 1, 1, [], [], []⟩ : SemanticCache) := by
    rw [get_snd, hmiss]
    simp [hc0]
  have hset := set_fresh_ok (⟨0.95, 0, 1, 1, [], [], []⟩ : SemanticCache) hashId embZero
    emptyDisk "a" samplePayload "t0" [0] rfl rfl
  refine ⟨hmiss, ?_, ?_⟩
  · rw [hc1, hset]
    simpa using lookupKey_setKey_self ([] : CacheData) (hashId "a") (withMeta samplePayload "t0")
  · rw [hc1, hset]
    apply get_single_nonpos_miss _ _ _ _ [0] [0]
    · simp [setKey_ne_nil]
    · simp
    · rfl
    · exact le_of_eq (cosineSim_zero_left [0] [0] (by norm_num [sumSq, dotProduct]))

/-- C3 (amended): after an insert whose embedding call succeeds on a fresh
key (so the save ran), a fresh store constructed from the same files
restores the payload map, stored queries and stored vectors exactly
(statistics counters reset to zero), and a lookup of the inserted query on
the fresh store returns exactly what it returns on the original store —
which is the payload of the earliest maximal-similarity entry, not
necessarily the payload just inserted. -/
theorem C3_persistence_roundtrip (c : SemanticCache) (hashKey : String → String)
    (emb : Embeddings) (d : Disk) (q : String) (p : JObj) (now : String) (v : Vec)
    (hfresh : lookupKey c.cache_data (hashKey q) = none)
    (hemb : emb.embed_query q = .ok v) :
    (SemanticCache.init c.similarity_threshold (c.set hashKey emb d q p now).2).cache_data
        = (c.set hashKey emb d q p now).1.cache_data ∧
    (SemanticCache.init c.similarity_threshold (c.set hashKey emb d q p now).2).cache_queries
        = (c.set hashKey emb d q p now).1.cache_queries ∧
    (SemanticCache.init c.similarity_threshold (c.set hashKey emb d q p now).2).cache_embeddings
        = (c.set hashKey emb d q p now).1.cache_embeddings ∧
    ((SemanticCache.init c.similarity_threshold (c.set hashKey emb d q p now).2).get
        hashKey emb q).1 = ((c.set hashKey emb d q p now).1.get hashKey emb q).1 := by
  rw [set_fresh_ok c hashKey emb d q p now v hfresh hemb]
  exact ⟨rfl, rfl, rfl, get_fst_congr _ _ hashKey emb q rfl rfl rfl rfl⟩

/-- Witness for C3 at a concrete store, query and payload. -/
theorem C3_persistence_roundtrip_witness :
    lookupKey (SemanticCache.init 0.95 emptyDisk).cache_data (hashId "a") = none ∧
    embOne.embed_query "a" = Except.ok [1] ∧
    ((SemanticCache.init (SemanticCache.init 0.95 emptyDisk).similarity_threshold
        ((SemanticCache.init 0.95 emptyDisk).set hashId embOne emptyDisk "a"
          samplePayload "t0").2).cache_data
        = ((SemanticCache.init 0.95 emptyDisk).set hashId embOne emptyDisk "a"
          samplePayload "t0").1.cache_data ∧
     (SemanticCache.init (SemanticCache.init 0.95 emptyDisk).similarity_threshold
        ((SemanticCache.init 0.95 emptyDisk).set hashId embOne emptyDisk "a"
          samplePayload "t0").2).cache_queries
        = ((SemanticCache.init 0.95 emptyDisk).set hashId embOne emptyDisk "a"
          samplePayload "t0").1.cache_queries ∧
     (SemanticCache.init (SemanticCache.init 0.95 emptyDisk).similarity_threshold
        ((SemanticCache.init 0.95 emptyDisk).set hashId embOne emptyDisk "a"
          samplePayload "t0").2).cache_embeddings
        = ((SemanticCache.init 0.95 emptyDisk).set hashId embOne emptyDisk "a"
          samplePayload "t0").1.cache_embeddings ∧
     ((SemanticCache.init (SemanticCache.init 0.95 emptyDisk).similarity_threshold
        ((SemanticCache.init 0.95 emptyDisk).set hashId embOne emptyDisk "a"
          samplePayload "t0").2).get hashId embOne "a").1
        = (((SemanticCache.init 0.95 emptyDisk).set hashId embOne emptyDisk "a"
          samplePayload "t0").1.get hashId embOne "a").1) :=
  ⟨rfl, rfl, C3_persistence_roundtrip (SemanticCache.init 0.95 emptyDisk) hashId embOne
    emptyDisk "a" samplePayload "t0" [1] rfl rfl⟩

/-- Counterexample to C3 as stated: with embeddings `"a" ↦ [1]`,
`"b" ↦ [2]` (distinct but parallel vectors, cosine similarity 1), after
inserting `"a"` then `"b"` and reconstructing from disk, looking up `"b"`
returns the payload stored for `"a"`, not the one inserted with `"b"`. -/
theorem C3_counterexample :
    ((SemanticCache.init 0.95
        (((SemanticCache.init 0.95 emptyDisk).set hashId embPar emptyDisk "a"
            samplePayload "t1").1.set hashId embPar
          ((SemanticCache.init 0.95 emptyDisk).set hashId embPar emptyDisk "a"
            samplePayload "t1").2 "b" samplePayload2 "t2").2).get hashId embPar "b").1
      = (true, some (withMeta samplePayload "t1")) ∧
    lookupKey (((SemanticCache.init 0.95 emptyDisk).set hashId embPar emptyDisk "a"
            samplePayload "t1").1.set hashId embPar
          ((SemanticCache.init 0.95 emptyDisk).set hashId embPar emptyDisk "a"
            samplePayload "t1").2 "b" samplePayload2 "t2").1.cache_data (hashId "b")
      = some (withMeta samplePayload2 "t2") ∧
    withMeta samplePayload "t1" ≠ withMeta samplePayload2 "t2" := by
  have h1 : (SemanticCache.init (0.95 : ℚ) emptyDisk).set hashId embPar emptyDisk "a"
      samplePayload "t1"
      = (⟨0.95, 0, 0, 0, ["a"], [[1]], [("a", withMeta samplePayload "t1")]⟩,
         ⟨some (.ok [("a", withMeta samplePayload "t1")]), some (.ok (["a"], [[1]]))⟩) := rfl
  have h2 : ((⟨0.95, 0, 0, 0, ["a"], [[1]], [("a", withMeta samplePayload "t1")]⟩ :
        SemanticCache).set hashId embPar
        ⟨some (.ok [("a", withMeta samplePayload "t1")]), some (.ok (["a"], [[1]]))⟩
        "b" samplePayload2 "t2")
      = (⟨0.95, 0, 0, 0, ["a", "b"], [[1], [2]],
          [("a", withMeta samplePayload "t1"), ("b", withMeta samplePayload2 "t2")]⟩,
         ⟨some (.ok [("a", withMeta samplePayload "t1"), ("b", withMeta samplePayload2 "t2")]),
          some (.ok (["a", "b"], [[1], [2]]))⟩) := rfl
  have h3 : SemanticCache.init (0.95 : ℚ)
      ⟨some (.ok [("a", withMeta samplePayload "t1"), ("b", withMeta samplePayload2 "t2")]),
       some (.ok (["a", "b"], [[1], [2]]))⟩
      = ⟨0.95, 0, 0, 0, ["a", "b"], [[1], [2]],
         [("a", withMeta samplePayload "t1"), ("b", withMeta samplePayload2 "t2")]⟩ := rfl
  have hcosA : cosineSim [(2 : ℚ)] [(1 : ℚ)] = 1 := by
    rw [cosineSim_eval [(2 : ℚ)] [(1 : ℚ)] 2 1 normR_two normR_one_vec
      (by norm_num) (by norm_num)]
    norm_num [dotProduct]
  have hcosB : cosineSim [(2 : ℚ)] [(2 : ℚ)] = 1 :=
    cosineSim_self _ (by norm_num [sumSq, dotProduct])
  have hscan : findMostSimilar [(2 : ℚ)] [[(1 : ℚ)], [(2 : ℚ)]] = (1, 0) := by
    norm_num [findMostSimilar, scanSims, hcosA, hcosB]
  have hembB : embPar.embed_query "b" = .ok [2] := rfl
  refine ⟨?_, ?_, ?_⟩
  · rw [h1, h2, h3]
    simp only [SemanticCache.get, hembB, hscan]
    norm_num [lookupKey, hashId, withMeta_ne_nil]
  · rw [h1, h2]
    simp [lookupKey, hashId, withMeta, setKey, samplePayload, samplePayload2]
  · simp [withMeta, setKey, samplePayload, samplePayload2]

lemma get_fst_eval (c : SemanticCache) (hashKey : String → String) (emb : Embeddings)
    (q : String) (v : Vec) (m : ℝ) (i : ℤ)
    (hne : ¬c.cache_data.length = 0) (hemb : emb.embed_query q = .ok v)
    (hfm : findMostSimilar v c.cache_embeddings = (m, i)) :
    (c.get hashKey emb q).1 =
      (if i = -1 then ((false : Bool), (none : Option JObj)) else
        match c.cache_queries[i.toNat]? with
        | none => (false, none)
        | some mq =>
            if m ≥ (c.similarity_threshold : ℝ) then
              match lookupKey c.cache_data (hashKey mq) with
              | some cached_data =>
                  if cached_data = [] then (false, none) else (true, some cached_data)
              | none => (false, none)
            else (false, none)) := by
  simp only [SemanticCache.get, hemb, hfm, hne]
  repeat' split
  all_goals simp_all

/-- C1 (amended): for a lookup on a store with a non-empty payload map
whose embedding call succeeds, the result is Hit with payload `d` exactly
when some index holds the earliest maximum of the cosine similarities, that
maximum is strictly positive and at least the threshold, the stored-queries
list has an entry at that index, and the matched query's derived key maps
to a non-empty payload `d`; in every other case the result is Miss.  (The
scan's running maximum starts at 0 and requires strict improvement, so a
maximum that is ≤ 0 yields Miss even when it reaches the threshold.) -/
theorem C1_lookup_argmax (c : SemanticCache) (hashKey : String → String)
    (emb : Embeddings) (q : String) (v : Vec) (d : JObj)
    (hne : c.cache_data ≠ []) (hemb : emb.embed_query q = .ok v) :
    ((c.get hashKey emb q).1 = (false, none) ∨
      ∃ d0, (c.get hashKey emb q).1 = (true, some d0)) ∧
    ((c.get hashKey emb q).1 = (true, some d) ↔
      ∃ k, k < c.cache_embeddings.length ∧
        0 < cosineSim v (c.cache_embeddings.getD k []) ∧
        (∀ j, j < c.cache_embeddings.length →
          cosineSim v (c.cache_embeddings.getD j [])
            ≤ cosineSim v (c.cache_embeddings.getD k [])) ∧
        (∀ j, j < k →
          cosineSim v (c.cache_embeddings.getD j [])
            < cosineSim v (c.cache_embeddings.getD k [])) ∧
        (c.similarity_threshold : ℝ) ≤ cosineSim v (c.cache_embeddings.getD k []) ∧
        ∃ mq, c.cache_queries[k]? = some mq ∧
          lookupKey c.cache_data (hashKey mq) = some d ∧ d ≠ []) := by
  have hlen : ¬c.cache_data.length = 0 := by simpa [List.length_eq_zero] using hne
  obtain ⟨hnn, hub, hcases⟩ := findMostSimilar_spec v c.cache_embeddings
  rcases hfm : findMostSimilar v c.cache_embeddings with ⟨m, i⟩
  simp only [hfm] at hnn hub hcases
  rw [get_fst_eval c hashKey emb q v m i hlen hemb hfm]
  rcases hcases with ⟨hm0, hi⟩ | ⟨k, hkl, hi, hval, hpos, hfirst⟩
  · rw [if_pos hi]
    refine ⟨Or.inl rfl, ?_, ?_⟩
    · intro h
      exact absurd h (by simp)
    · rintro ⟨k, hkl, hpos, hmax, hfst, hth, mq, hmq, hl, hd⟩
      have h1 := hub k hkl
      rw [hm0] at h1
      exact absurd (lt_of_lt_of_le hpos h1) (lt_irrefl _)
  · have hine : ¬i = -1 := by rw [hi]; omega
    have hitn : i.toNat = k := by rw [hi]; simp
    have huniq : ∀ k2, k2 < c.cache_embeddings.length →
        (∀ j, j < c.cache_embeddings.length →
          cosineSim v (c.cache_embeddings.getD j [])
            ≤ cosineSim v (c.cache_embeddings.getD k2 [])) →
        (∀ j, j < k2 →
          cosineSim v (c.cache_embeddings.getD j [])
            < cosineSim v (c.cache_embeddings.getD k2 [])) →
        k2 = k := by
      intro k2 h2 hmax2 hfst2
      exact firstMax_unique h2 hkl hmax2 hfst2
        (fun j hj => by rw [← hval]; exact hub j hj)
        (fun j hj => by rw [← hval]; exact hfirst j hj)
    rcases hQ : c.cache_queries[k]? with _ | mq
    · simp only [if_neg hine, hitn, hQ]
      refine ⟨Or.inl trivial, ?_, ?_⟩
      · intro h
        exact absurd h (by simp)
      · rintro ⟨k2, hk2, hpos2, hmax2, hfst2, hth2, mq2, hmq2, hl2, hd2⟩
        rw [huniq k2 hk2 hmax2 hfst2, hQ] at hmq2
        simp at hmq2
    · by_cases hth : m ≥ (c.similarity_threshold : ℝ)
      · rcases hL : lookupKey c.cache_data (hashKey mq) with _ | cd
        · simp only [if_neg hine, hitn, hQ, if_pos hth, hL]
          refine ⟨Or.inl trivial, ?_, ?_⟩
          · intro h
            exact absurd h (by simp)
          · rintro ⟨k2, hk2, hpos2, hmax2, hfst2, hth2, mq2, hmq2, hl2, hd2⟩
            rw [huniq k2 hk2 hmax2 hfst2, hQ] at hmq2
            have hmq2e : mq2 = mq := by
              exact (Option.some_injective _ hmq2.symm)
            rw [hmq2e, hL] at hl2
            simp at hl2
        · by_cases hcd : cd = []
          · simp only [if_neg hine, hitn, hQ, if_pos hth, hL, if_pos hcd]
            refine ⟨Or.inl trivial, ?_, ?_⟩
            · intro h
              exact absurd h (by simp)
            · rintro ⟨k2, hk2, hpos2, hmax2, hfst2, hth2, mq2, hmq2, hl2, hd2⟩
              rw [huniq k2 hk2 hmax2 hfst2, hQ] at hmq2
              have hmq2e : mq2 = mq := Option.some_injective _ hmq2.symm
              rw [hmq2e, hL] at hl2
              have : cd = d := Option.some_injective _ hl2
              rw [← this, hcd] at hd2
              exact absurd rfl hd2
          · simp only [if_neg hine, hitn, hQ, if_pos hth, hL, if_neg hcd]
            refine ⟨Or.inr ⟨cd, rfl⟩, ?_, ?_⟩
            · intro h
              have hdc : cd = d := by simpa using h
              refine ⟨k, hkl, ?_, ?_, ?_, ?_, mq, hQ, ?_, ?_⟩
              · rw [← hval]; exact hpos
              · intro j hj; rw [← hval]; exact hub j hj
              · intro j hj; rw [← hval]; exact hfirst j hj
              · rw [← hval]; exact hth
              · rw [← hdc]; exact hL
              · rw [← hdc]; exact hcd
            · rintro ⟨k2, hk2, hpos2, hmax2, hfst2, hth2, mq2, hmq2, hl2, hd2⟩
              rw [huniq k2 hk2 hmax2 hfst2, hQ] at hmq2
              have hmq2e : mq2 = mq := Option.some_injective _ hmq2.symm
              rw [hmq2e, hL] at hl2
              have : cd = d := Option.some_injective _ hl2
              rw [this]
      · simp only [if_neg hine, hitn, hQ, if_neg hth]
        refine ⟨Or.inl trivial, ?_, ?_⟩
        · intro h
          exact absurd h (by simp)
        · rintro ⟨k2, hk2, hpos2, hmax2, hfst2, hth2, mq2, hmq2, hl2, hd2⟩
          have hk2k := huniq k2 hk2 hmax2 hfst2
          rw [hk2k] at hth2
          rw [← hval] at hth2
          exact absurd hth2 hth

/-- Witness for C1 at a concrete single-entry store where the lookup hits. -/
theorem C1_lookup_argmax_witness :
    ([("a", samplePayload)] : CacheData) ≠ [] ∧
    embOne.embed_query "b" = Except.ok [1] ∧
    (((SemanticCache.get ⟨1/2, 0, 0, 0, ["a"], [[1]], [("a", samplePayload)]⟩
          hashId embOne "b").1 = (false, none) ∨
      ∃ d0, (SemanticCache.get ⟨1/2, 0, 0, 0, ["a"], [[1]], [("a", samplePayload)]⟩
          hashId embOne "b").1 = (true, some d0)) ∧
     ((SemanticCache.get ⟨1/2, 0, 0, 0, ["a"], [[1]], [("a", samplePayload)]⟩
          hashId embOne "b").1 = (true, some samplePayload) ↔
       ∃ k, k < ([[(1 : ℚ)]] : List Vec).length ∧
         0 < cosineSim [1] (([[(1 : ℚ)]] : List Vec).getD k []) ∧
         (∀ j, j < ([[(1 : ℚ)]] : List Vec).length →
           cosineSim [1] (([[(1 : ℚ)]] : List Vec).getD j [])
             ≤ cosineSim [1] (([[(1 : ℚ)]] : List Vec).getD k [])) ∧
         (∀ j, j < k →
           cosineSim [1] (([[(1 : ℚ)]] : List Vec).getD j [])
             < cosineSim [1] (([[(1 : ℚ)]] : List Vec).getD k [])) ∧
         (((1 / 2 : ℚ) : ℚ) : ℝ) ≤ cosineSim [1] (([[(1 : ℚ)]] : List Vec).getD k []) ∧
         ∃ mq, (["a"] : List String)[k]? = some mq ∧
           lookupKey ([("a", samplePayload)] : CacheData) (hashId mq) = some samplePayload ∧
           samplePayload ≠ [])) :=
  ⟨by simp, rfl,
   C1_lookup_argmax ⟨1/2, 0, 0, 0, ["a"], [[1]], [("a", samplePayload)]⟩
     hashId embOne "b" [1] samplePayload (by simp) rfl⟩

/-- Counterexample to C1 as stated: a store with threshold 0 holding one
entry whose embedding is orthogonal to the query's: the maximum cosine
similarity across the index is 0, which is ≥ the threshold, the matched
payload exists and is non-empty — yet the lookup returns Miss, because the
scan's running maximum starts at 0 and requires strict improvement. -/
theorem C1_counterexample :
    ((SemanticCache.init 0 emptyDisk).set hashId embOrtho emptyDisk "a"
        samplePayload "t0").1.cache_data ≠ [] ∧
    embOrtho.embed_query "q" = Except.ok [1, 0] ∧
    ((SemanticCache.init 0 emptyDisk).set hashId embOrtho emptyDisk "a"
        samplePayload "t0").1.cache_embeddings = [[0, 1]] ∧
    ((SemanticCache.init 0 emptyDisk).set hashId embOrtho emptyDisk "a"
        samplePayload "t0").1.similarity_threshold = 0 ∧
    cosineSim [1, 0] [0, 1] = 0 ∧
    ((((SemanticCache.init 0 emptyDisk).set hashId embOrtho emptyDisk "a"
        samplePayload "t0").1.similarity_threshold : ℝ)
      ≤ cosineSim [1, 0] ((((SemanticCache.init 0 emptyDisk).set hashId embOrtho
        emptyDisk "a" samplePayload "t0").1.cache_embeddings).getD 0 [])) ∧
    lookupKey ((SemanticCache.init 0 emptyDisk).set hashId embOrtho emptyDisk "a"
        samplePayload "t0").1.cache_data (hashId "a") = some (withMeta samplePayload "t0") ∧
    withMeta samplePayload "t0" ≠ [] ∧
    (((SemanticCache.init 0 emptyDisk).set hashId embOrtho emptyDisk "a"
        samplePayload "t0").1.get hashId embOrtho "q").1 = (false, none) := by
  have h1 : ((SemanticCache.init 0 emptyDisk).set hashId embOrtho emptyDisk "a"
      samplePayload "t0").1
      = (⟨0, 0, 0, 0, ["a"], [[0, 1]], [("a", withMeta samplePayload "t0")]⟩ :
        SemanticCache) := rfl
  have hcos : cosineSim [(1 : ℚ), 0] [(0 : ℚ), 1] = 0 := by
    rw [cosineSim_of_unit _ _ (by norm_num [sumSq, dotProduct])
      (by norm_num [sumSq, dotProduct])]
    norm_num [dotProduct]
  rw [h1]
  refine ⟨by simp, rfl, rfl, rfl, hcos, ?_, ?_, withMeta_ne_nil _ _, ?_⟩
  · simp [hcos]
  · simp [lookupKey, hashId]
  · exact get_single_nonpos_miss _ hashId embOrtho "q" [1, 0] [0, 1]
      (by simp) rfl rfl (le_of_eq hcos)

/-- C9: inserting into the context layer leaves the response layer's state
and files unchanged and vice versa; hence (for stores whose other layer is
empty) inserting a query into one layer never produces a hit when looking
the same text up in the other layer. -/
theorem C9_layer_independence (hashKey : String → String) (emb : Embeddings)
    (t : TwoLevelCache) (dks : TwoLevelDisk) (q q2 context response : String)
    (ts : JVal) (now : String)
    (hL : t.llm_cache.cache_data = []) (hR : t.rag_cache.cache_data = []) :
    (t.set_rag_context hashKey emb dks q context ts now).1.llm_cache = t.llm_cache ∧
    (t.set_rag_context hashKey emb dks q context ts now).2.llm = dks.llm ∧
    (t.set_llm_response hashKey emb dks q response ts now).1.rag_cache = t.rag_cache ∧
    (t.set_llm_response hashKey emb dks q response ts now).2.rag = dks.rag ∧
    ((t.set_rag_context hashKey emb dks q context ts now).1.get_llm_response hashKey emb
        (t.set_rag_context hashKey emb dks q context ts now).2 q2 now).1 = (false, none) ∧
    ((t.set_llm_response hashKey emb dks q response ts now).1.get_rag_context hashKey emb
        (t.set_llm_response hashKey emb dks q response ts now).2 q2).1 = (false, none) := by
  have hmissL : (t.llm_cache.get hashKey emb q2).1 = (false, none) := by
    simp [SemanticCache.get, hL]
  have hmissR : (t.rag_cache.get hashKey emb q2).1 = (false, none) := by
    simp [SemanticCache.get, hR]
  refine ⟨rfl, rfl, rfl, rfl, ?_, ?_⟩
  · simp only [TwoLevelCache.get_llm_response, TwoLevelCache.set_rag_context, hmissL]
    simp
  · simp only [TwoLevelCache.get_rag_context, TwoLevelCache.set_llm_response]
    exact hmissR

/-- Witness for C9 at a concrete fresh two-level cache. -/
theorem C9_layer_independence_witness :
    (TwoLevelCache.init 0.95 0.92 ⟨emptyDisk, emptyDisk⟩).llm_cache.cache_data = [] ∧
    (TwoLevelCache.init 0.95 0.92 ⟨emptyDisk, emptyDisk⟩).rag_cache.cache_data = [] ∧
    (((TwoLevelCache.init 0.95 0.92 ⟨emptyDisk, emptyDisk⟩).set_rag_context hashId embOne
        ⟨emptyDisk, emptyDisk⟩ "a" "ctx" (JVal.nat 0) "t0").1.llm_cache
      = (TwoLevelCache.init 0.95 0.92 ⟨emptyDisk, emptyDisk⟩).llm_cache ∧
     ((TwoLevelCache.init 0.95 0.92 ⟨emptyDisk, emptyDisk⟩).set_rag_context hashId embOne
        ⟨emptyDisk, emptyDisk⟩ "a" "ctx" (JVal.nat 0) "t0").2.llm = emptyDisk ∧
     ((TwoLevelCache.init 0.95 0.92 ⟨emptyDisk, emptyDisk⟩).set_llm_response hashId embOne
        ⟨emptyDisk, emptyDisk⟩ "a" "resp" (JVal.nat 0) "t0").1.rag_cache
      = (TwoLevelCache.init 0.95 0.92 ⟨emptyDisk, emptyDisk⟩).rag_cache ∧
     ((TwoLevelCache.init 0.95 0.92 ⟨emptyDisk, emptyDisk⟩).set_llm_response hashId embOne
        ⟨emptyDisk, emptyDisk⟩ "a" "resp" (JVal.nat 0) "t0").2.rag = emptyDisk ∧
     (((TwoLevelCache.init 0.95 0.92 ⟨emptyDisk, emptyDisk⟩).set_rag_context hashId embOne
        ⟨emptyDisk, emptyDisk⟩ "a" "ctx" (JVal.nat 0) "t0").1.get_llm_response hashId embOne
        ((TwoLevelCache.init 0.95 0.92 ⟨emptyDisk, emptyDisk⟩).set_rag_context hashId embOne
          ⟨emptyDisk, emptyDisk⟩ "a" "ctx" (JVal.nat 0) "t0").2 "a" "t0").1 = (false, none) ∧
     (((TwoLevelCache.init 0.95 0.92 ⟨emptyDisk, emptyDisk⟩).set_llm_response hashId embOne
        ⟨emptyDisk, emptyDisk⟩ "a" "resp" (JVal.nat 0) "t0").1.get_rag_context hashId embOne
        ((TwoLevelCache.init 0.95 0.92 ⟨emptyDisk, emptyDisk⟩).set_llm_response hashId embOne
          ⟨emptyDisk, emptyDisk⟩ "a" "resp" (JVal.nat 0) "t0").2 "a").1 = (false, none)) :=
  ⟨rfl, rfl,
   C9_layer_independence hashId embOne (TwoLevelCache.init 0.95 0.92 ⟨emptyDisk, emptyDisk⟩)
     ⟨emptyDisk, emptyDisk⟩ "a" "a" "ctx" "resp" (JVal.nat 0) "t0" rfl rfl⟩

/-- C10: a response-layer hit updates the matched entry's bookkeeping —
`access_count` incremented, `last_accessed` set, payload-map file
rewritten (only that file) — while `update_access` silently does nothing
when the cached payload has no `"query"` field, and a context-layer lookup
mutates no payload data and no file at all. -/
theorem C10_response_hit_side_effects (hashKey : String → String) (emb : Embeddings)
    (t : TwoLevelCache) (dks : TwoLevelDisk) (q now : String) (d : JObj) (qs : String)
    (entry : JObj) (n : ℕ) (c2 : SemanticCache) (dk2 : Disk) (d2 : JObj)
    (hhit : (t.llm_cache.get hashKey emb q).1 = (true, some d))
    (hq : lookupKey d "query" = some (.str qs)) (hqs : ¬qs = "")
    (hentry : lookupKey t.llm_cache.cache_data (hashKey qs) = some entry)
    (hac : lookupKey entry "access_count" = some (.nat n))
    (hq2 : lookupKey d2 "query" = none) :
    t.get_llm_response hashKey emb dks q now =
      ((true, lookupKey d "response"),
       ⟨t.rag_cache,
        { (t.llm_cache.get hashKey emb q).2 with
            cache_data := (setKey t.llm_cache.cache_data (hashKey qs)
              (setKey (setKey entry "access_count" (.nat (n + 1)))
                "last_accessed" (.str now))) }⟩,
       ⟨dks.rag,
        { dks.llm with cacheFile := (some (.ok (setKey t.llm_cache.cache_data (hashKey qs)
              (setKey (setKey entry "access_count" (.nat (n + 1)))
                "last_accessed" (.str now))))) }⟩) ∧
    c2.update_access hashKey dk2 d2 now = (c2, dk2) ∧
    (t.get_rag_context hashKey emb dks q).2.2 = dks ∧
    (t.get_rag_context hashKey emb dks q).2.1.rag_cache.cache_data
        = t.rag_cache.cache_data ∧
    (t.get_rag_context hashKey emb dks q).2.1.llm_cache = t.llm_cache := by
  refine ⟨?_, update_access_noop_no_query c2 hashKey dk2 d2 now hq2, rfl, ?_, rfl⟩
  · have hcd : (t.llm_cache.get hashKey emb q).2.cache_data = t.llm_cache.cache_data :=
      (get_core t.llm_cache hashKey emb q).2.2.2
    have hupd := update_access_effect ((t.llm_cache.get hashKey emb q).2) hashKey
      dks.llm d now qs entry n hq hqs (by rw [hcd]; exact hentry) hac
    rw [hcd] at hupd
    simp only [TwoLevelCache.get_llm_response, hhit]
    simp only [Option.getD_some]
    rw [hupd]
    simp
  · simp only [TwoLevelCache.get_rag_context]
    exact (get_core t.rag_cache hashKey emb q).2.2.2

/-- Witness for C10 at a concrete two-level cache holding one LLM entry. -/
theorem C10_response_hit_side_effects_witness :
    (let s1 := (TwoLevelCache.init 0.95 0.92 ⟨emptyDisk, emptyDisk⟩).set_llm_response hashId
        embOne ⟨emptyDisk, emptyDisk⟩ "a" "resp" (JVal.nat 7) "t1"
     let pl := withMeta [("query", JVal.str "a"), ("response", JVal.str "resp"),
        ("token_stats", JVal.nat 7)] "t1"
     (s1.1.llm_cache.get hashId embOne "a").1 = (true, some pl) ∧
     lookupKey pl "query" = some (JVal.str "a") ∧
     ¬("a" : String) = "" ∧
     lookupKey s1.1.llm_cache.cache_data (hashId "a") = some pl ∧
     lookupKey pl "access_count" = some (JVal.nat 1) ∧
     lookupKey samplePayload "query" = none ∧
     (s1.1.get_llm_response hashId embOne s1.2 "a" "t2" =
        ((true, lookupKey pl "response"),
         ⟨s1.1.rag_cache,
          { (s1.1.llm_cache.get hashId embOne "a").2 with
              cache_data := (setKey s1.1.llm_cache.cache_data (hashId "a")
                (setKey (setKey pl "access_count" (JVal.nat (1 + 1)))
                  "last_accessed" (JVal.str "t2"))) }⟩,
         ⟨s1.2.rag,
          { s1.2.llm with cacheFile := (some (.ok (setKey s1.1.llm_cache.cache_data (hashId "a")
                (setKey (setKey pl "access_count" (JVal.nat (1 + 1)))
                  "last_accessed" (JVal.str "t2"))))) }⟩) ∧
      (SemanticCache.init 1 emptyDisk).update_access hashId emptyDisk samplePayload "t2"
          = (SemanticCache.init 1 emptyDisk, emptyDisk) ∧
      (s1.1.get_rag_context hashId embOne s1.2 "a").2.2 = s1.2 ∧
      (s1.1.get_rag_context hashId embOne s1.2 "a").2.1.rag_cache.cache_data
          = s1.1.rag_cache.cache_data ∧
      (s1.1.get_rag_context hashId embOne s1.2 "a").2.1.llm_cache = s1.1.llm_cache)) := by
  intro s1 pl
  have hllm : s1.1.llm_cache
      = (⟨0.92, 0, 0, 0, ["a"], [[1]], [("a", pl)]⟩ : SemanticCache) := rfl
  have hhit : (s1.1.llm_cache.get hashId embOne "a").1 = (true, some pl) := by
    apply get_single_entry_hit _ _ _ _ [1] pl
    · rw [hllm]
      rfl
    · exact withMeta_ne_nil _ _
    · rw [hllm]
    · rw [hllm]
    · rfl
    · norm_num [sumSq, dotProduct]
    · rw [hllm]
      push_cast
      norm_num
  have hq : lookupKey pl "query" = some (JVal.str "a") := by decide
  have hentry : lookupKey s1.1.llm_cache.cache_data (hashId "a") = some pl := by
    rw [hllm]
    simp [lookupKey, hashId]
  have hac : lookupKey pl "access_count" = some (JVal.nat 1) := by decide
  exact ⟨hhit, hq, by decide, hentry, hac, rfl,
    C10_response_hit_side_effects hashId embOne s1.1 s1.2 "a" "t2" pl "a" pl 1
      (SemanticCache.init 1 emptyDisk) emptyDisk samplePayload
      hhit hq (by decide) hentry hac rfl⟩

/-! ### Trace lemmas: statistics accounting and the alignment invariant -/

lemma noResets_cons (op : CacheOp) (rest : List CacheOp)
    (h : noResets (op :: rest) = true) : noResets rest = true := by
  simp [noResets, List.all_cons] at h ⊢
  exact h.2

lemma setsOk_cons (emb : Embeddings) (op : CacheOp) (rest : List CacheOp)
    (h : setsOk emb (op :: rest) = true) : setsOk emb rest = true := by
  simp [setsOk, List.all_cons] at h ⊢
  exact h.2

lemma runOps_counters (hashKey : String → String) (emb : Embeddings) (t : ℚ)
    (T : List CacheOp) (s : SemanticCache × Disk) (hT : noResets T = true) :
    (runOps hashKey emb t s T).1.hits = s.1.hits + countHits hashKey emb t s T ∧
    (runOps hashKey emb t s T).1.misses = s.1.misses + countMisses hashKey emb t s T ∧
    (runOps hashKey emb t s T).1.total_queries
        = s.1.total_queries + countHits hashKey emb t s T + countMisses hashKey emb t s T := by
  induction T generalizing s with
  | nil => simp [runOps, countHits, countMisses]
  | cons op rest ih =>
      have hT' : noResets rest = true := noResets_cons op rest hT
      cases op with
      | opGet q =>
          obtain ⟨h2h, h2m, h2t⟩ := ih (applyOp hashKey emb t s (.opGet q)) hT'
          obtain ⟨hgt, hgh, hgm⟩ := get_counters s.1 hashKey emb q
          have happ : (applyOp hashKey emb t s (.opGet q)).1 = (s.1.get hashKey emb q).2 := rfl
          rw [happ] at h2h h2m h2t
          have hrun : runOps hashKey emb t s (.opGet q :: rest)
              = runOps hashKey emb t (applyOp hashKey emb t s (.opGet q)) rest := rfl
          have hch : countHits hashKey emb t s (.opGet q :: rest)
              = (if (s.1.get hashKey emb q).1.1 then 1 else 0)
                + countHits hashKey emb t (applyOp hashKey emb t s (.opGet q)) rest := rfl
          have hcm : countMisses hashKey emb t s (.opGet q :: rest)
              = (if (s.1.get hashKey emb q).1.1 then 0 else 1)
                + countMisses hashKey emb t (applyOp hashKey emb t s (.opGet q)) rest := rfl
          rw [hrun, hch, hcm]
          by_cases hb : (s.1.get hashKey emb q).1.1
          · simp only [hb, if_true] at hgh hgm ⊢
            exact ⟨by omega, by omega, by omega⟩
          · simp only [hb, if_false, Bool.false_eq_true] at hgh hgm ⊢
            exact ⟨by omega, by omega, by omega⟩
      | opSet q data now =>
          obtain ⟨h2h, h2m, h2t⟩ := ih (applyOp hashKey emb t s (.opSet q data now)) hT'
          obtain ⟨hsh, hsm, hst, _⟩ :=
            set_counters s.1 hashKey emb s.2 q data now
          have happ : (applyOp hashKey emb t s (.opSet q data now)).1
              = (s.1.set hashKey emb s.2 q data now).1 := rfl
          rw [happ] at h2h h2m h2t
          have hrun : runOps hashKey emb t s (.opSet q data now :: rest)
              = runOps hashKey emb t (applyOp hashKey emb t s (.opSet q data now)) rest := rfl
          have hch : countHits hashKey emb t s (.opSet q data now :: rest)
              = countHits hashKey emb t (applyOp hashKey emb t s (.opSet q data now)) rest := rfl
          have hcm : countMisses hashKey emb t s (.opSet q data now :: rest)
              = countMisses hashKey emb t (applyOp hashKey emb t s (.opSet q data now)) rest := rfl
          rw [hrun, hch, hcm]
          exact ⟨by omega, by omega, by omega⟩
      | opUpdate cd now =>
          obtain ⟨h2h, h2m, h2t⟩ := ih (applyOp hashKey emb t s (.opUpdate cd now)) hT'
          obtain ⟨huh, hum, hut, _, _, _⟩ :=
            update_access_counters s.1 hashKey s.2 cd now
          have happ : (applyOp hashKey emb t s (.opUpdate cd now)).1
              = (s.1.update_access hashKey s.2 cd now).1 := rfl
          rw [happ] at h2h h2m h2t
          have hrun : runOps hashKey emb t s (.opUpdate cd now :: rest)
              = runOps hashKey emb t (applyOp hashKey emb t s (.opUpdate cd now)) rest := rfl
          have hch : countHits hashKey emb t s (.opUpdate cd now :: rest)
              = countHits hashKey emb t (applyOp hashKey emb t s (.opUpdate cd now)) rest := rfl
          have hcm : countMisses hashKey emb t s (.opUpdate cd now :: rest)
              = countMisses hashKey emb t (applyOp hashKey emb t s (.opUpdate cd now)) rest := rfl
          rw [hrun, hch, hcm]
          exact ⟨by omega, by omega, by omega⟩
      | opClear => simp [noResets, List.all_cons] at hT
      | opReload => simp [noResets, List.all_cons] at hT

/-- C5 (amended): over any sequence of lookups, inserts and access updates
on a freshly constructed store (no clear or restart), the statistics track
the trace exactly — `n_h` hits and `n_m` misses give
`total_queries = n_h + n_m`, `hits = n_h`, `misses = n_m`,
`entry_count` the current payload-map size, and `hit_rate` is the
PERCENTAGE `n_h / (n_h + n_m) * 100` (0 when no query was made), not the
ratio `n_h / (n_h + n_m)`. -/
theorem C5_stats_accounting (hashKey : String → String) (emb : Embeddings) (t : ℚ)
    (T : List CacheOp) (hT : noResets T = true) :
    (runOps hashKey emb t (SemanticCache.init t emptyDisk, emptyDisk) T).1.get_stats =
      { total_queries := countHits hashKey emb t (SemanticCache.init t emptyDisk, emptyDisk) T
            + countMisses hashKey emb t (SemanticCache.init t emptyDisk, emptyDisk) T
        cache_hits := countHits hashKey emb t (SemanticCache.init t emptyDisk, emptyDisk) T
        cache_misses := countMisses hashKey emb t (SemanticCache.init t emptyDisk, emptyDisk) T
        hit_rate :=
          (if 0 < countHits hashKey emb t (SemanticCache.init t emptyDisk, emptyDisk) T
              + countMisses hashKey emb t (SemanticCache.init t emptyDisk, emptyDisk) T then
            ((countHits hashKey emb t (SemanticCache.init t emptyDisk, emptyDisk) T : ℚ) /
              ((countHits hashKey emb t (SemanticCache.init t emptyDisk, emptyDisk) T
                + countMisses hashKey emb t (SemanticCache.init t emptyDisk, emptyDisk) T : ℕ) : ℚ))
              * 100
          else 0)
        cache_size :=
          (runOps hashKey emb t (SemanticCache.init t emptyDisk, emptyDisk) T).1.cache_data.length } := by
  obtain ⟨hh, hm, ht2⟩ := runOps_counters hashKey emb t T
    (SemanticCache.init t emptyDisk, emptyDisk) hT
  have h0h : (SemanticCache.init t emptyDisk, emptyDisk).1.hits = 0 := rfl
  have h0m : (SemanticCache.init t emptyDisk, emptyDisk).1.misses = 0 := rfl
  have h0t : (SemanticCache.init t emptyDisk, emptyDisk).1.total_queries = 0 := rfl
  have hh2 : (runOps hashKey emb t (SemanticCache.init t emptyDisk, emptyDisk) T).1.hits
      = countHits hashKey emb t (SemanticCache.init t emptyDisk, emptyDisk) T := by
    rw [hh, h0h]; omega
  have hm2 : (runOps hashKey emb t (SemanticCache.init t emptyDisk, emptyDisk) T).1.misses
      = countMisses hashKey emb t (SemanticCache.init t emptyDisk, emptyDisk) T := by
    rw [hm, h0m]; omega
  have ht3 : (runOps hashKey emb t (SemanticCache.init t emptyDisk, emptyDisk) T).1.total_queries
      = countHits hashKey emb t (SemanticCache.init t emptyDisk, emptyDisk) T
        + countMisses hashKey emb t (SemanticCache.init t emptyDisk, emptyDisk) T := by
    rw [ht2, h0t]; omega
  simp only [SemanticCache.get_stats, hh2, hm2, ht3]

/-- Witness for C5 at a concrete trace. -/
theorem C5_stats_accounting_witness :
    noResets [CacheOp.opSet "a" samplePayload "t0"] = true ∧
    (runOps hashId embOne 0.95 (SemanticCache.init 0.95 emptyDisk, emptyDisk)
        [CacheOp.opSet "a" samplePayload "t0"]).1.get_stats =
      { total_queries := countHits hashId embOne 0.95 (SemanticCache.init 0.95 emptyDisk, emptyDisk)
            [CacheOp.opSet "a" samplePayload "t0"]
            + countMisses hashId embOne 0.95 (SemanticCache.init 0.95 emptyDisk, emptyDisk)
            [CacheOp.opSet "a" samplePayload "t0"]
        cache_hits := countHits hashId embOne 0.95 (SemanticCache.init 0.95 emptyDisk, emptyDisk)
            [CacheOp.opSet "a" samplePayload "t0"]
        cache_misses := countMisses hashId embOne 0.95 (SemanticCache.init 0.95 emptyDisk, emptyDisk)
            [CacheOp.opSet "a" samplePayload "t0"]
        hit_rate :=
          (if 0 < countHits hashId embOne 0.95 (SemanticCache.init 0.95 emptyDisk, emptyDisk)
              [CacheOp.opSet "a" samplePayload "t0"]
              + countMisses hashId embOne 0.95 (SemanticCache.init 0.95 emptyDisk, emptyDisk)
              [CacheOp.opSet "a" samplePayload "t0"] then
            ((countHits hashId embOne 0.95 (SemanticCache.init 0.95 emptyDisk, emptyDisk)
                [CacheOp.opSet "a" samplePayload "t0"] : ℚ) /
              ((countHits hashId embOne 0.95 (SemanticCache.init 0.95 emptyDisk, emptyDisk)
                  [CacheOp.opSet "a" samplePayload "t0"]
                + countMisses hashId embOne 0.95 (SemanticCache.init 0.95 emptyDisk, emptyDisk)
                  [CacheOp.opSet "a" samplePayload "t0"] : ℕ) : ℚ)) * 100
          else 0)
        cache_size :=
          (runOps hashId embOne 0.95 (SemanticCache.init 0.95 emptyDisk, emptyDisk)
            [CacheOp.opSet "a" samplePayload "t0"]).1.cache_data.length } :=
  ⟨rfl, C5_stats_accounting hashId embOne 0.95 [CacheOp.opSet "a" samplePayload "t0"] rfl⟩

/-- Counterexample to C5 as stated: one insert then one (hitting) lookup
gives `hits = 1`, `total_queries = 1`, so hits divided by total queries is
1 — but `get_stats` reports `hit_rate = 100` (a percentage). -/
theorem C5_counterexample :
    (runOps hashId embOne 0.95 (SemanticCache.init 0.95 emptyDisk, emptyDisk)
        [CacheOp.opSet "a" samplePayload "t0", CacheOp.opGet "a"]).1.get_stats.hit_rate = 100 ∧
    (runOps hashId embOne 0.95 (SemanticCache.init 0.95 emptyDisk, emptyDisk)
        [CacheOp.opSet "a" samplePayload "t0", CacheOp.opGet "a"]).1.hits = 1 ∧
    (runOps hashId embOne 0.95 (SemanticCache.init 0.95 emptyDisk, emptyDisk)
        [CacheOp.opSet "a" samplePayload "t0", CacheOp.opGet "a"]).1.total_queries = 1 ∧
    ((runOps hashId embOne 0.95 (SemanticCache.init 0.95 emptyDisk, emptyDisk)
        [CacheOp.opSet "a" samplePayload "t0", CacheOp.opGet "a"]).1.hits : ℚ)
      / ((runOps hashId embOne 0.95 (SemanticCache.init 0.95 emptyDisk, emptyDisk)
        [CacheOp.opSet "a" samplePayload "t0", CacheOp.opGet "a"]).1.total_queries : ℚ) = 1 ∧
    (100 : ℚ) ≠ 1 := by
  have hrun : runOps hashId embOne 0.95 (SemanticCache.init 0.95 emptyDisk, emptyDisk)
      [CacheOp.opSet "a" samplePayload "t0", CacheOp.opGet "a"]
      = (((⟨0.95, 0, 0, 0, ["a"], [[1]], [("a", withMeta samplePayload "t0")]⟩ :
          SemanticCache).get hashId embOne "a").2,
         ⟨some (.ok [("a", withMeta samplePayload "t0")]), some (.ok (["a"], [[1]]))⟩) := rfl
  have hhit : ((⟨0.95, 0, 0, 0, ["a"], [[1]], [("a", withMeta samplePayload "t0")]⟩ :
      SemanticCache).get hashId embOne "a").1 = (true, some (withMeta samplePayload "t0")) := by
    apply get_single_entry_hit _ _ _ _ [1] (withMeta samplePayload "t0")
    · rfl
    · exact withMeta_ne_nil _ _
    · rfl
    · rfl
    · rfl
    · norm_num [sumSq, dotProduct]
    · push_cast
      norm_num
  have hb : ((⟨0.95, 0, 0, 0, ["a"], [[1]], [("a", withMeta samplePayload "t0")]⟩ :
      SemanticCache).get hashId embOne "a").1.1 = true := by rw [hhit]
  have hsnd : ((⟨0.95, 0, 0, 0, ["a"], [[1]], [("a", withMeta samplePayload "t0")]⟩ :
      SemanticCache).get hashId embOne "a").2
      = (⟨0.95, 1, 0, 1, ["a"], [[1]], [("a", withMeta samplePayload "t0")]⟩ :
        SemanticCache) := by
    rw [get_snd, hb]
    simp
  rw [hrun, hsnd]
  refine ⟨?_, rfl, rfl, by norm_num, by norm_num⟩
  simp [SemanticCache.get_stats]

lemma load_cache_ok (x : CacheData) (y : List String) (z : List Vec) :
    load_cache ⟨some (.ok x), some (.ok (y, z))⟩ = (x, y, z) := rfl

lemma applyOp_inv (hashKey : String → String) (emb : Embeddings) (t : ℚ)
    (c : SemanticCache) (d : Disk) (op : CacheOp)
    (hop : ∀ q data now, op = .opSet q data now → ∃ v, emb.embed_query q = .ok v)
    (hc : Consistent c) (hd : DiskSync c d) :
    Consistent (applyOp hashKey emb t (c, d) op).1 ∧
    DiskSync (applyOp hashKey emb t (c, d) op).1 (applyOp hashKey emb t (c, d) op).2 := by
  obtain ⟨hc1, hc2, hc3⟩ := hc
  obtain ⟨hd1, hd2, hd3, hd4, hd5, hd6⟩ := hd
  cases op with
  | opGet q =>
      obtain ⟨hth, hqs, hes, hdt⟩ := get_core c hashKey emb q
      have happ1 : (applyOp hashKey emb t (c, d) (.opGet q)).1 = (c.get hashKey emb q).2 := rfl
      have happ2 : (applyOp hashKey emb t (c, d) (.opGet q)).2 = d := rfl
      rw [happ1, happ2]
      refine ⟨⟨?_, ?_, ?_⟩, ⟨?_, ?_, ?_, hd4, hd5, hd6⟩⟩
      · rw [hdt, hqs]; exact hc1
      · rw [hes, hqs]; exact hc2
      · rw [hdt]; exact hc3
      · rw [hqs]; exact hd1
      · rw [hqs]; exact hd2
      · rw [hqs]; exact hd3
  | opSet q data now =>
      have happ : applyOp hashKey emb t (c, d) (.opSet q data now)
          = c.set hashKey emb d q data now := rfl
      rw [happ]
      by_cases hkey : (lookupKey c.cache_data (hashKey q)).isSome
      · rw [set_skip _ _ _ _ _ _ _ hkey]
        exact ⟨⟨hc1, hc2, hc3⟩, ⟨hd1, hd2, hd3, hd4, hd5, hd6⟩⟩
      · have hfresh : lookupKey c.cache_data (hashKey q) = none := by
          rcases hL : lookupKey c.cache_data (hashKey q) with _ | w
          · rfl
          · rw [hL] at hkey; simp at hkey
        obtain ⟨v, hv⟩ := hop q data now rfl
        rw [set_fresh_ok c hashKey emb d q data now v hfresh hv]
        have hset := setKey_of_none c.cache_data (hashKey q) (withMeta data now) hfresh
        have hkmem : hashKey q ∉ c.cache_data.map Prod.fst :=
          (lookupKey_eq_none_iff _ _).mp hfresh
        have hnodup : ((setKey c.cache_data (hashKey q) (withMeta data now)).map Prod.fst).Nodup := by
          rw [hset, List.map_append]
          refine List.Nodup.append hc3 (List.nodup_singleton _) ?_
          intro x hx hx2
          simp at hx2
          subst hx2
          exact hkmem hx
        have hlen : (setKey c.cache_data (hashKey q) (withMeta data now)).length
            = c.cache_data.length + 1 := by
          rw [hset]; simp
        refine ⟨⟨?_, ?_, hnodup⟩, ?_⟩
        · simp only [hlen]
          simp [hc1]
        · simp [hc2]
        · rw [show ((⟨some (.ok (setKey c.cache_data (hashKey q) (withMeta data now))),
              some (.ok (c.cache_queries ++ [q], c.cache_embeddings ++ [v]))⟩ : Disk))
              = (⟨some (.ok (setKey c.cache_data (hashKey q) (withMeta data now))),
              some (.ok (c.cache_queries ++ [q], c.cache_embeddings ++ [v]))⟩ : Disk) from rfl]
          refine ⟨?_, ?_, ?_, ?_, Or.inr ⟨_, rfl⟩, Or.inr ⟨_, rfl⟩⟩
          · rw [load_cache_ok]
            simp only [hlen]
            simp [hc1]
          · rw [load_cache_ok]
          · rw [load_cache_ok]
            simp [hc2]
          · rw [load_cache_ok]
            exact hnodup
  | opUpdate cd now =>
      have happ : applyOp hashKey emb t (c, d) (.opUpdate cd now)
          = c.update_access hashKey d cd now := rfl
      rw [happ]
      rcases hq : lookupKey cd "query" with _ | jv
      · rw [update_access_noop_no_query _ _ _ _ _ hq]
        exact ⟨⟨hc1, hc2, hc3⟩, ⟨hd1, hd2, hd3, hd4, hd5, hd6⟩⟩
      · cases jv with
        | nat n =>
            have hnoop : c.update_access hashKey d cd now = (c, d) := by
              simp [SemanticCache.update_access, hq]
            rw [hnoop]
            exact ⟨⟨hc1, hc2, hc3⟩, ⟨hd1, hd2, hd3, hd4, hd5, hd6⟩⟩
        | str qs =>
            by_cases hq0 : qs = ""
            · have hnoop : c.update_access hashKey d cd now = (c, d) := by
                simp [SemanticCache.update_access, hq, hq0]
              rw [hnoop]
              exact ⟨⟨hc1, hc2, hc3⟩, ⟨hd1, hd2, hd3, hd4, hd5, hd6⟩⟩
            · rcases hL : lookupKey c.cache_data (hashKey qs) with _ | entry
              · have hnoop : c.update_access hashKey d cd now = (c, d) := by
                  simp [SemanticCache.update_access, hq, hq0, hL]
                rw [hnoop]
                exact ⟨⟨hc1, hc2, hc3⟩, ⟨hd1, hd2, hd3, hd4, hd5, hd6⟩⟩
              · rcases hA : lookupKey entry "access_count" with _ | av
                · have hnoop : c.update_access hashKey d cd now = (c, d) := by
                    simp [SemanticCache.update_access, hq, hq0, hL, hA]
                  rw [hnoop]
                  exact ⟨⟨hc1, hc2, hc3⟩, ⟨hd1, hd2, hd3, hd4, hd5, hd6⟩⟩
                · cases av with
                  | str s2 =>
                      have hnoop : c.update_access hashKey d cd now = (c, d) := by
                        simp [SemanticCache.update_access, hq, hq0, hL, hA]
                      rw [hnoop]
                      exact ⟨⟨hc1, hc2, hc3⟩, ⟨hd1, hd2, hd3, hd4, hd5, hd6⟩⟩
                  | nat n =>
                      rw [update_access_effect c hashKey d cd now qs entry n hq hq0 hL hA]
                      have hmap := setKey_map_fst_of_some c.cache_data (hashKey qs)
                        (setKey (setKey entry "access_count" (.nat (n + 1)))
                          "last_accessed" (.str now)) entry hL
                      have hlen := setKey_length_of_some c.cache_data (hashKey qs)
                        (setKey (setKey entry "access_count" (.nat (n + 1)))
                          "last_accessed" (.str now)) entry hL
                      have hlq : (setKey c.cache_data (hashKey qs)
                          (setKey (setKey entry "access_count" (.nat (n + 1)))
                            "last_accessed" (.str now))).length = c.cache_queries.length := by
                        rw [hlen]; exact hc1
                      have hnodup2 : ((setKey c.cache_data (hashKey qs)
                          (setKey (setKey entry "access_count" (.nat (n + 1)))
                            "last_accessed" (.str now))).map Prod.fst).Nodup := by
                        rw [hmap]; exact hc3
                      refine ⟨⟨hlq, hc2, hnodup2⟩, ?_⟩
                      obtain ⟨cf, vf⟩ := d
                      rcases hd6 with hvn | ⟨qe, hvs⟩
                      · -- the vector file is absent: then no save ever ran, so the
                        -- stored-queries list is empty and the payload map too,
                        -- contradicting the entry found by the update
                        simp only at hvn
                        subst hvn
                        have hq0len : c.cache_queries.length = 0 := by
                          rcases hd5 with hcn | ⟨pm, hcs⟩
                          · simp only at hcn
                            subst hcn
                            exact hd2.symm
                          · simp only at hcs
                            subst hcs
                            exact hd2.symm
                        have hdat0 : c.cache_data = [] := by
                          rw [← List.length_eq_zero, hc1]
                          exact hq0len
                        rw [hdat0] at hL
                        simp [lookupKey] at hL
                      · simp only at hvs
                        subst hvs
                        obtain ⟨qs2, es2⟩ := qe
                        have hload2 : load_cache ⟨some (.ok (setKey c.cache_data (hashKey qs)
                            (setKey (setKey entry "access_count" (.nat (n + 1)))
                              "last_accessed" (.str now)))), some (.ok (qs2, es2))⟩
                            = (setKey c.cache_data (hashKey qs)
                              (setKey (setKey entry "access_count" (.nat (n + 1)))
                                "last_accessed" (.str now)), qs2, es2) := rfl
                        have hq2len : qs2.length = c.cache_queries.length := by
                          rcases hd5 with hcn | ⟨pm, hcs⟩
                          · simp only at hcn
                            subst hcn
                            exact hd2
                          · simp only at hcs
                            subst hcs
                            exact hd2
                        have he2len : es2.length = c.cache_queries.length := by
                          rcases hd5 with hcn | ⟨pm, hcs⟩
                          · simp only at hcn
                            subst hcn
                            exact hd3
                          · simp only at hcs
                            subst hcs
                            exact hd3
                        rw [show ({ (⟨cf, some (.ok (qs2, es2))⟩ : Disk) with
                            cacheFile := (some (.ok (setKey c.cache_data (hashKey qs)
                              (setKey (setKey entry "access_count" (.nat (n + 1)))
                                "last_accessed" (.str now))))) } : Disk)
                            = (⟨some (.ok (setKey c.cache_data (hashKey qs)
                              (setKey (setKey entry "access_count" (.nat (n + 1)))
                                "last_accessed" (.str now)))), some (.ok (qs2, es2))⟩ : Disk)
                            from rfl]
                        refine ⟨?_, ?_, ?_, ?_, Or.inr ⟨_, rfl⟩, Or.inr ⟨_, rfl⟩⟩
                        · rw [hload2]
                          exact hlq
                        · rw [hload2]
                          exact hq2len
                        · rw [hload2]
                          exact he2len
                        · rw [hload2]
                          exact hnodup2
  | opClear =>
      have happ : applyOp hashKey emb t (c, d) .opClear = c.clear d := rfl
      rw [happ]
      refine ⟨⟨rfl, rfl, List.nodup_nil⟩, ⟨rfl, rfl, rfl, List.nodup_nil, Or.inl rfl, Or.inl rfl⟩⟩
  | opReload =>
      have happ1 : (applyOp hashKey emb t (c, d) .opReload).1 = SemanticCache.init t d := rfl
      have happ2 : (applyOp hashKey emb t (c, d) .opReload).2 = d := rfl
      rw [happ1, happ2]
      have hi1 : (SemanticCache.init t d).cache_data = (load_cache d).1 := rfl
      have hi2 : (SemanticCache.init t d).cache_queries = (load_cache d).2.1 := rfl
      have hi3 : (SemanticCache.init t d).cache_embeddings = (load_cache d).2.2 := rfl
      refine ⟨⟨?_, ?_, ?_⟩, ⟨?_, ?_, ?_, hd4, hd5, hd6⟩⟩
      · rw [hi1, hi2]
        omega
      · rw [hi3, hi2]
        omega
      · rw [hi1]
        exact hd4
      · rw [hi2]
        omega
      · rw [hi2]
      · rw [hi2]
        omega

lemma runOps_inv (hashKey : String → String) (emb : Embeddings) (t : ℚ)
    (T : List CacheOp) (s : SemanticCache × Disk) (hok : setsOk emb T = true)
    (hc : Consistent s.1) (hd : DiskSync s.1 s.2) :
    Consistent (runOps hashKey emb t s T).1 ∧
    DiskSync (runOps hashKey emb t s T).1 (runOps hashKey emb t s T).2 := by
  induction T generalizing s with
  | nil => exact ⟨hc, hd⟩
  | cons op rest ih =>
      have hok' : setsOk emb rest = true := setsOk_cons emb op rest hok
      have hop : ∀ q data now, op = .opSet q data now → ∃ v, emb.embed_query q = .ok v := by
        intro q data now heq
        subst heq
        simp only [setsOk, List.all_cons, Bool.and_eq_true] at hok
        rcases hE : emb.embed_query q with m | v
        · rw [hE] at hok
          simp at hok
        · exact ⟨v, rfl⟩
      have hstep := applyOp_inv hashKey emb t s.1 s.2 op hop hc hd
      have hrun : runOps hashKey emb t s (op :: rest)
          = runOps hashKey emb t (applyOp hashKey emb t s op) rest := rfl
      rw [hrun]
      have hs : applyOp hashKey emb t (s.1, s.2) op = applyOp hashKey emb t s op := by
        rw [Prod.mk.eta]
      rw [hs] at hstep
      exact ih (applyOp hashKey emb t s op) hok' hstep.1 hstep.2

/-- C6 (amended): in every store state reachable by any sequence of
construction, lookup, insert, access update, clear and restart operations
in which every insert's embedding call succeeds, the number of distinct
payload keys equals the length of the stored-queries list (the QueryIndex).
An insert whose embedding call fails stores the payload-map entry first and
then aborts before appending the (query, embedding) pair, breaking the
alignment. -/
theorem C6_index_invariant (hashKey : String → String) (emb : Embeddings) (t : ℚ)
    (T : List CacheOp) (hok : setsOk emb T = true) :
    (((runOps hashKey emb t (SemanticCache.init t emptyDisk, emptyDisk) T).1.cache_data.map
        Prod.fst).dedup).length
      = (runOps hashKey emb t (SemanticCache.init t emptyDisk, emptyDisk) T).1.cache_queries.length := by
  have hc0 : Consistent (SemanticCache.init t emptyDisk, emptyDisk).1 :=
    ⟨rfl, rfl, List.nodup_nil⟩
  have hd0 : DiskSync (SemanticCache.init t emptyDisk, emptyDisk).1
      (SemanticCache.init t emptyDisk, emptyDisk).2 :=
    ⟨rfl, rfl, rfl, List.nodup_nil, Or.inl rfl, Or.inl rfl⟩
  obtain ⟨⟨h1, h2, h3⟩, _⟩ := runOps_inv hashKey emb t T
    (SemanticCache.init t emptyDisk, emptyDisk) hok hc0 hd0
  rw [List.dedup_eq_self.mpr h3, List.length_map]
  exact h1

/-- Witness for C6 at a concrete trace with a succeeding insert. -/
theorem C6_index_invariant_witness :
    setsOk embOne [CacheOp.opSet "a" samplePayload "t0", CacheOp.opGet "a",
      CacheOp.opReload] = true ∧
    (((runOps hashId embOne 0.95 (SemanticCache.init 0.95 emptyDisk, emptyDisk)
        [CacheOp.opSet "a" samplePayload "t0", CacheOp.opGet "a",
          CacheOp.opReload]).1.cache_data.map Prod.fst).dedup).length
      = (runOps hashId embOne 0.95 (SemanticCache.init 0.95 emptyDisk, emptyDisk)
        [CacheOp.opSet "a" samplePayload "t0", CacheOp.opGet "a",
          CacheOp.opReload]).1.cache_queries.length :=
  ⟨rfl, C6_index_invariant hashId embOne 0.95
    [CacheOp.opSet "a" samplePayload "t0", CacheOp.opGet "a", CacheOp.opReload] rfl⟩

/-- Counterexample to C6 as stated: a single insert whose embedding call
raises leaves one payload-map key and an empty QueryIndex. -/
theorem C6_counterexample :
    (((runOps hashId embErr 0.95 (SemanticCache.init 0.95 emptyDisk, emptyDisk)
        [CacheOp.opSet "a" samplePayload "t0"]).1.cache_data.map Prod.fst).dedup).length = 1 ∧
    (runOps hashId embErr 0.95 (SemanticCache.init 0.95 emptyDisk, emptyDisk)
        [CacheOp.opSet "a" samplePayload "t0"]).1.cache_queries.length = 0 ∧
    (1 : ℕ) ≠ 0 := by
  have h1 : (runOps hashId embErr 0.95 (SemanticCache.init 0.95 emptyDisk, emptyDisk)
      [CacheOp.opSet "a" samplePayload "t0"]).1
      = (⟨0.95, 0, 0, 0, [], [], [("a", withMeta samplePayload "t0")]⟩ : SemanticCache) := rfl
  rw [h1]
  refine ⟨?_, rfl, by decide⟩
  rfl
